import Mathlib

/-!
Verification of the VideoActionViewer data-merger module
(`src/utils/` data merger: file-type detection, JSON sub-type sniffing,
complete-results extraction, merge engine, batch classification, summary view).

The TypeScript source is shallowly embedded:
* JSON values are modelled by the inductive `Json`; JavaScript truthiness,
  property access (including the `TypeError` thrown on `null`/`undefined`
  access) and the `'k' in v` operator are modelled explicitly.
* `JSON.parse` and the four external format decoders (`parseWebVTT`,
  `parseRTTM`, `parseCOCOPersonData`, `parseSceneDetection`) are imported
  collaborators of the module, so they appear as components of an
  environment `Env`; errors carry their message string.
* The browser video-metadata probe (`document.createElement('video')`)
  cannot be embedded; `Env.videoMetadata` models the DOM answer and
  `extractVideoInfo` wraps it exactly as the source does (fixed reject
  message, default frame rate 30, filename copied from the file).
* `async`/`await` sequencing is purely sequential in the source, so it is
  modelled by ordinary function composition; the `onProgress` callback is
  modelled by an accumulated trace of its invocations.
* JavaScript numbers are modelled as `Int` (the merger performs no numeric
  computation on them beyond summation), wall-clock timestamps
  (`new Date().toISOString()`, `Date.now()`) are not modelled, and string
  prefixes taken with `file.slice(0, n).text()` are modelled by `String.take`.
-/

/-- A JSON value (as produced by a successful `JSON.parse`).
Objects are modelled as association lists; we assume parsed objects carry
no duplicate keys (for duplicate keys JavaScript keeps the last occurrence,
which simply yields a different association list). -/
inductive Json where
  | null : Json
  | bool (b : Bool) : Json
  | num (n : Int) : Json
  | str (s : String) : Json
  | arr (elems : List Json) : Json
  | obj (fields : List (String × Json)) : Json
deriving Repr

/-- JavaScript truthiness of a defined value: `null`, `false`, `0` and the
empty string are falsy; every array and object is truthy. -/
def truthy : Json → Bool
  | .null => false
  | .bool b => b
  | .num n => n != 0
  | .str s => s != ""
  | .arr _ => true
  | .obj _ => true

/-- Truthiness of a possibly-undefined value (`none` models `undefined`). -/
def jtruthy : Option Json → Bool
  | none => false
  | some j => truthy j

/-- JavaScript property read `v.k`: throws a `TypeError` on `null`
(modelled by `Except.error`), yields `undefined` (`none`) on primitives and
arrays (the keys read by this module are never array indices or `length`),
and looks the key up on objects. -/
def getField : Json → String → Except String (Option Json)
  | .null, _ => .error "TypeError"
  | .obj kvs, k => .ok (kvs.lookup k)
  | _, _ => .ok none

/-- JavaScript membership test `'k' in v`: throws on primitives, is `false`
on arrays (for the non-numeric keys this module tests), and tests key
presence on objects. -/
def hasKey : Json → String → Except String Bool
  | .obj kvs, k => .ok (kvs.any (fun kv => kv.1 == k))
  | .arr _, _ => .ok false
  | _, _ => .error "TypeError"

/-- JavaScript index read `v[0]` (only ever evaluated on truthy values in
the source): first element of an array, key `"0"` of an object, first
character of a non-empty string, `undefined` otherwise. -/
def index0 : Json → Option Json
  | .arr l => l.head?
  | .obj kvs => kvs.lookup "0"
  | .str s => if s = "" then none else some (.str (s.take 1))
  | _ => none

/-- An uploaded file: its name, its MIME type, and its text content. -/
structure DFile where
  name : String
  mimeType : String
  text : String
deriving Repr, DecidableEq

/-- The file categories of `DetectedFile.type`. -/
inductive FileType where
  | video
  | audio
  | person_tracking
  | speech_recognition
  | speaker_diarization
  | scene_detection
  | face_analysis
  | complete_results
  | unknown
deriving Repr, DecidableEq

/-- Classification result for one file (`DetectedFile` in the source). -/
structure DetectedFile where
  file : DFile
  type : FileType
  pipeline : Option String
  confidence : ℚ
deriving Repr, DecidableEq

/-- Metadata answer of the browser video element for a file:
`none` models the `error` event, `some (duration, width, height)` models
`loadedmetadata`. -/
structure Env where
  /-- Model of `JSON.parse`; the error carries the thrown message. -/
  parseJson : String → Except String Json
  /-- External WebVTT decoder (`parseWebVTT`). -/
  parseWebVTT : DFile → Except String (List Json)
  /-- External RTTM decoder (`parseRTTM`). -/
  parseRTTM : DFile → Except String (List Json)
  /-- External COCO person decoder (`parseCOCOPersonData`). -/
  parseCOCOPersonData : DFile → Except String (List Json)
  /-- External scene decoder (`parseSceneDetection`). -/
  parseSceneDetection : DFile → Except String (List Json)
  /-- Browser metadata probe answer per video file. -/
  videoMetadata : DFile → Option (Int × Int × Int)

/-- Model of `file.slice(0, n).text()`: the first `n` characters.  Equal in
value to `String.take`, but short-circuiting when the whole string is
shorter than `n`, so that concrete instances evaluate without the
`n`-deep recursion of `String.take`. -/
def strTake (s : String) (n : Nat) : String :=
  if s.length ≤ n then s else s.take n

/-- Model of `s.includes(pat)` for the non-empty literal patterns used by the
classifier: `pat` occurs in `s` iff splitting on it yields several parts. -/
def strIncludes (s pat : String) : Bool := (s.splitOn pat).length != 1

/-- Sniffer `isValidWebVTT`: the first 100 characters, trimmed, start with `WEBVTT`. -/
def isValidWebVTT (file : DFile) : Bool :=
  ((strTake file.text 100).trim).startsWith "WEBVTT"

/-- Sniffer `isValidRTTM`: the first 1000 characters contain `SPEAKER`. -/
def isValidRTTM (file : DFile) : Bool :=
  strIncludes (strTake file.text 1000) "SPEAKER"

/-- Body of `isValidCOCOPersonData` after a successful parse of the
2000-character sample. -/
def cocoCheck (data : Json) : Except String Bool :=
  match data with
  | .arr [] => .ok true
  | .arr (x :: _) =>
    if truthy x then
      match hasKey x "keypoints" with
      | .error e => .error e
      | .ok false => .ok false
      | .ok true => hasKey x "bbox"
    else .ok false
  | _ =>
    match getField data "annotations" with
    | .error e => .error e
    | .ok ann =>
      match ann with
      | some (.arr _) => .ok true
      | _ =>
        match getField data "results" with
        | .error e => .error e
        | .ok (some (.arr _)) => .ok true
        | .ok _ => .ok false

/-- Sniffer `isValidCOCOPersonData`: parse a 2000-character sample; an array matches
when empty or when its first element has `keypoints` and `bbox`; otherwise
the value matches when its `annotations` or `results` field is an array.
Any thrown error means no match. -/
def isValidCOCOPersonData (env : Env) (file : DFile) : Bool :=
  match env.parseJson (strTake file.text 2000) with
  | .error _ => false
  | .ok data =>
    match cocoCheck data with
    | .ok b => b
    | .error _ => false

/-- Evaluation of `field && field[0] && 'scene_type' in field[0]`-shaped
conjunctions (used for `annotations`/`results` probing): yields the boolean
value, or the thrown `TypeError` when the first element is a truthy
primitive. -/
def probeFirstElemKey (v : Option Json) (k : String) : Except String Bool :=
  match v with
  | none => .ok false
  | some a =>
    if truthy a then
      match index0 a with
      | none => .ok false
      | some a0 => if truthy a0 then hasKey a0 k else .ok false
    else .ok false

/-- Body of `isValidSceneDetection` after a successful sample parse. -/
def sceneCheck (data : Json) : Except String Bool :=
  match data with
  | .arr [] => .ok true
  | .arr (x :: _) =>
    if truthy x then
      match hasKey x "start_time" with
      | .error e => .error e
      | .ok true => .ok true
      | .ok false => hasKey x "startTime"
    else .ok false
  | _ =>
    match getField data "results" with
    | .error e => .error e
    | .ok (some (.arr _)) => .ok true
    | .ok _ =>
      match getField data "scenes" with
      | .error e => .error e
      | .ok (some (.arr _)) => .ok true
      | .ok _ =>
        match getField data "annotations" with
        | .error e => .error e
        | .ok ann => probeFirstElemKey ann "scene_type"

/-- Sniffer `isValidSceneDetection` on the 2000-character sample. -/
def isValidSceneDetection (env : Env) (file : DFile) : Bool :=
  match env.parseJson (strTake file.text 2000) with
  | .error _ => false
  | .ok data =>
    match sceneCheck data with
    | .ok b => b
    | .error _ => false

/-- Body of `isValidFaceAnalysis` after a successful sample parse:
`data.length === 0 || (data[0] && 'face_id' in data[0] && 'attributes' in data[0])`
for arrays, otherwise
`(data.annotations && data.annotations[0] && 'face_id' in data.annotations[0]) ||
 (data.results && data.results[0] && 'face_id' in data.results[0])`. -/
def faceCheck (data : Json) : Except String Bool :=
  match data with
  | .arr [] => .ok true
  | .arr (x :: _) =>
    if truthy x then
      match hasKey x "face_id" with
      | .error e => .error e
      | .ok false => .ok false
      | .ok true => hasKey x "attributes"
    else .ok false
  | _ =>
    match getField data "annotations" with
    | .error e => .error e
    | .ok ann =>
      match probeFirstElemKey ann "face_id" with
      | .error e => .error e
      | .ok true => .ok true
      | .ok false =>
        match getField data "results" with
        | .error e => .error e
        | .ok rs => probeFirstElemKey rs "face_id"

/-- Sniffer `isValidFaceAnalysis` on the 2000-character sample. -/
def isValidFaceAnalysis (env : Env) (file : DFile) : Bool :=
  match env.parseJson (strTake file.text 2000) with
  | .error _ => false
  | .ok data =>
    match faceCheck data with
    | .ok b => b
    | .error _ => false

/-- Body of `isValidCompleteResults` after a successful whole-file parse:
`!!(data.video_path && data.pipeline_results && data.config &&
data.start_time && data.total_duration !== undefined)`; reading a property
of a `null` value throws (caught by the sniffer, yielding no match). -/
def crCheck (data : Json) : Except String Bool :=
  match getField data "video_path" with
  | .error e => .error e
  | .ok vp =>
    if jtruthy vp then
      match getField data "pipeline_results" with
      | .error e => .error e
      | .ok pr =>
        if jtruthy pr then
          match getField data "config" with
          | .error e => .error e
          | .ok cf =>
            if jtruthy cf then
              match getField data "start_time" with
              | .error e => .error e
              | .ok st =>
                if jtruthy st then
                  match getField data "total_duration" with
                  | .error e => .error e
                  | .ok td => .ok td.isSome
                else .ok false
            else .ok false
        else .ok false
    else .ok false

/-- Sniffer `isValidCompleteResults`: parses the **entire** file text and checks the
bundle fields; any thrown error yields no match. -/
def isValidCompleteResults (env : Env) (file : DFile) : Bool :=
  match env.parseJson file.text with
  | .error _ => false
  | .ok data =>
    match crCheck data with
    | .ok b => b
    | .error _ => false

/-- Classifier `detectJSONType`: complete-results sniffer on the whole file first; then
the 5000-character sample must parse (a parse failure is caught and yields
`unknown` at confidence 0); then the face, COCO and scene sniffers in order;
then the filename fallbacks; otherwise `unknown` at confidence 0.2. -/
def detectJSONType (env : Env) (file : DFile) : DetectedFile :=
  if isValidCompleteResults env file then
    ⟨file, .complete_results, some "complete_results", 0.95⟩
  else
    match env.parseJson (strTake file.text 5000) with
    | .error _ => ⟨file, .unknown, none, 0⟩
    | .ok _ =>
      if isValidFaceAnalysis env file then
        ⟨file, .face_analysis, some "face_analysis", 0.8⟩
      else if isValidCOCOPersonData env file then
        ⟨file, .person_tracking, some "person_tracking", 0.8⟩
      else if isValidSceneDetection env file then
        ⟨file, .scene_detection, some "scene_detection", 0.8⟩
      else if strIncludes file.name "complete_results" then
        ⟨file, .complete_results, some "complete_results", 0.7⟩
      else if strIncludes file.name "face_annotations" || strIncludes file.name "laion_face" then
        ⟨file, .face_analysis, some "face_analysis", 0.6⟩
      else if strIncludes file.name "person" || strIncludes file.name "tracking" then
        ⟨file, .person_tracking, some "person_tracking", 0.5⟩
      else if strIncludes file.name "scene" then
        ⟨file, .scene_detection, some "scene_detection", 0.5⟩
      else
        ⟨file, .unknown, none, 0.2⟩

/-- Classifier `detectFileType`: extension/MIME checks for video and audio first, then
the VTT and RTTM text formats, then JSON content analysis, else `unknown`. -/
def detectFileType (env : Env) (file : DFile) : DetectedFile :=
  let extension := ((file.name.toLower).splitOn ".").getLastD ""
  let mimeType := file.mimeType.toLower
  if ["mp4", "webm", "avi", "mov"].contains extension || mimeType.startsWith "video/" then
    ⟨file, .video, none, 0.95⟩
  else if ["wav", "mp3", "aac", "ogg"].contains extension || mimeType.startsWith "audio/" then
    ⟨file, .audio, none, 0.95⟩
  else if extension = "vtt" || strIncludes file.name "speech_recognition" then
    ⟨file, .speech_recognition, some "speech_recognition",
      if isValidWebVTT file then 0.9 else 0.3⟩
  else if extension = "rttm" || strIncludes file.name "speaker_diarization" then
    ⟨file, .speaker_diarization, some "speaker_diarization",
      if isValidRTTM file then 0.9 else 0.3⟩
  else if extension = "json" || mimeType = "application/json" then
    detectJSONType env file
  else
    ⟨file, .unknown, none, 0⟩

/-- Result record of `parseCompleteResults`. -/
structure CRParsed where
  personTracking : List Json
  faceAnalysis : List Json
  sceneDetection : List Json
  config : Option Json
  processingTime : Int
  totalDuration : Option Json
deriving Repr

/-- Evaluation of `data.pipeline_results.person?.results || []` given the
already-read `pipeline_results` value: optional chaining yields `undefined`
on `undefined`/`null`, then a falsy or missing `results` gives `[]`.  The
bundle schema declares `results` as a sequence, so a `results` value that
is present, truthy and not an array does not occur; it is modelled as `[]`. -/
def sectionResults (pr : Option Json) (k : String) : Except String (List Json) :=
  match pr with
  | none => .error "TypeError"
  | some prj =>
    match getField prj k with
    | .error e => .error e
    | .ok sec =>
      match sec with
      | some (.obj kvs) =>
        match kvs.lookup "results" with
        | some (.arr l) => .ok l
        | _ => .ok []
      | _ => .ok []

/-- Values iterated by `Object.values(data.pipeline_results)` (the
`pipeline_results` value is known non-`undefined`/non-`null` at this point). -/
def jsValues : Option Json → List Json
  | some (.obj kvs) => kvs.map (fun kv => kv.2)
  | some (.arr l) => l
  | _ => []

/-- One summand of the aggregate processing time:
`result?.processing_time || 0` (the schema declares it numeric). -/
def ptOf (r : Json) : Int :=
  match r with
  | .obj kvs =>
    match kvs.lookup "processing_time" with
    | some (.num n) => n
    | _ => 0
  | _ => 0

/-- Extractor `parseCompleteResults`: whole-file `JSON.parse`, then pulls the
three embedded `results` sequences, the `config`, the summed processing time
and `total_duration`.  Reading `pipeline_results.person` throws when
`pipeline_results` is `undefined` or `null` (or `data` is `null`); any
thrown error is the extractor's failure. -/
def parseCompleteResults (env : Env) (file : DFile) : Except String CRParsed :=
  match env.parseJson file.text with
  | .error e => .error e
  | .ok data =>
    match getField data "pipeline_results" with
    | .error e => .error e
    | .ok pr =>
      match sectionResults pr "person" with
      | .error e => .error e
      | .ok personTracking =>
        match sectionResults pr "face" with
        | .error e => .error e
        | .ok faceAnalysis =>
          match sectionResults pr "scene" with
          | .error e => .error e
          | .ok sceneDetection =>
            match getField data "config" with
            | .error e => .error e
            | .ok config =>
              match getField data "total_duration" with
              | .error e => .error e
              | .ok totalDuration =>
                .ok { personTracking, faceAnalysis, sceneDetection, config,
                      processingTime := (jsValues pr).foldl (fun s r => s + ptOf r) 0,
                      totalDuration }

/-- Local decoder `parseFaceAnalysis`: whole-file parse; an array is returned
as is; otherwise the `annotations` or `results` field when it is an array;
otherwise `[]`.  A parse failure or a `TypeError` on `null` propagates. -/
def parseFaceAnalysis (env : Env) (file : DFile) : Except String (List Json) :=
  match env.parseJson file.text with
  | .error e => .error e
  | .ok data =>
    match data with
    | .arr l => .ok l
    | _ =>
      match getField data "annotations" with
      | .error e => .error e
      | .ok (some (.arr l)) => .ok l
      | .ok _ =>
        match getField data "results" with
        | .error e => .error e
        | .ok (some (.arr l)) => .ok l
        | .ok _ => .ok []

/-- Record `video_info` produced by `extractVideoInfo`. -/
structure VideoInfo where
  filename : String
  duration : Int
  width : Int
  height : Int
  frame_rate : Int
deriving Repr

/-- Probe `extractVideoInfo`: resolves with the file's name, the probed
duration/width/height and the default frame rate 30, or rejects with the
fixed message when the video element fires `error`. -/
def extractVideoInfo (env : Env) (videoFile : DFile) : Except String VideoInfo :=
  match env.videoMetadata videoFile with
  | some (d, w, h) => .ok ⟨videoFile.name, d, w, h, 30⟩
  | none => .error "Failed to load video metadata"

/-- The function-local accumulators of `mergeAnnotationData` that drive the
merge result (everything except the processed-files counter and the
progress trace). -/
structure MergeCore where
  videoFile : Option DFile
  audioFile : Option DFile
  personTracking : List Json
  speechRecognition : List Json
  speakerDiarization : List Json
  sceneDetection : List Json
  faceAnalysis : List Json
  processingConfig : Option Json
  processingTime : Option Int
  totalDuration : Option Json
  warnings : List String
  pipelinesFound : List String
deriving Repr

/-- Initial accumulator state. -/
def initCore : MergeCore :=
  { videoFile := none, audioFile := none, personTracking := [],
    speechRecognition := [], speakerDiarization := [], sceneDetection := [],
    faceAnalysis := [], processingConfig := none, processingTime := none,
    totalDuration := none, warnings := [], pipelinesFound := [] }

/-- Full loop state: accumulators plus the `processedFiles` counter and the
trace of `onProgress` invocations `(stage, completed, total)`. -/
structure MergeSt where
  core : MergeCore
  processedFiles : Nat
  progress : List (String × Nat × Nat)
deriving Repr

/-- Warning text for a per-file decoder failure (the decoders' thrown
errors are `Error` values, so the message is the error's message). -/
def failMsg (f : DetectedFile) (e : String) : String :=
  "Failed to parse " ++ f.file.name ++ ": " ++ e

/-- Warning text for an unknown-typed file. -/
def unknownMsg (f : DetectedFile) : String :=
  "Could not determine type of file: " ++ f.file.name

/-- Warning text for a failed complete-results extraction. -/
def crFailMsg (f : DetectedFile) (e : String) : String :=
  "Failed to parse complete results " ++ f.file.name ++ ": " ++ e

/-- Effect of one loop iteration of `mergeAnnotationData` on the
accumulators: the `switch` on the detected type, with the
only-if-slot-empty guards for person/face/scene, the always-decoded
speech/speaker cases, and the try/catch that turns a decoder failure into
a warning.  A loop file of type `complete_results` hits no `switch` case. -/
def stepCore (env : Env) (c : MergeCore) (f : DetectedFile) : MergeCore :=
  match f.type with
  | .video => { c with videoFile := some f.file }
  | .audio => { c with audioFile := some f.file }
  | .person_tracking =>
    if c.personTracking.isEmpty then
      match env.parseCOCOPersonData f.file with
      | .ok l => { c with personTracking := l,
                          pipelinesFound := c.pipelinesFound ++ ["person_tracking"] }
      | .error e => { c with warnings := c.warnings ++ [failMsg f e] }
    else c
  | .face_analysis =>
    if c.faceAnalysis.isEmpty then
      match parseFaceAnalysis env f.file with
      | .ok l => { c with faceAnalysis := l,
                          pipelinesFound := c.pipelinesFound ++ ["face_analysis"] }
      | .error e => { c with warnings := c.warnings ++ [failMsg f e] }
    else c
  | .speech_recognition =>
    match env.parseWebVTT f.file with
    | .ok l => { c with speechRecognition := l,
                        pipelinesFound := c.pipelinesFound ++ ["speech_recognition"] }
    | .error e => { c with warnings := c.warnings ++ [failMsg f e] }
  | .speaker_diarization =>
    match env.parseRTTM f.file with
    | .ok l => { c with speakerDiarization := l,
                        pipelinesFound := c.pipelinesFound ++ ["speaker_diarization"] }
    | .error e => { c with warnings := c.warnings ++ [failMsg f e] }
  | .scene_detection =>
    if c.sceneDetection.isEmpty then
      match env.parseSceneDetection f.file with
      | .ok l => { c with sceneDetection := l,
                          pipelinesFound := c.pipelinesFound ++ ["scene_detection"] }
      | .error e => { c with warnings := c.warnings ++ [failMsg f e] }
    else c
  | .unknown => { c with warnings := c.warnings ++ [unknownMsg f] }
  | .complete_results => c

/-- One loop iteration on the full state: progress event (emitted before the
`switch`, carrying the current processed count and the total), the `switch`
via `stepCore`, and the unconditional `processedFiles++`. -/
def stepFile (env : Env) (totalFiles : Nat) (st : MergeSt) (f : DetectedFile) : MergeSt :=
  { core := stepCore env st.core f,
    processedFiles := st.processedFiles + 1,
    progress := st.progress ++ [("Processing " ++ f.file.name, st.processedFiles, totalFiles)] }

/-- The `for` loop of `mergeAnnotationData` over the remaining files. -/
def mergeLoop (env : Env) (totalFiles : Nat) (st : MergeSt) : List DetectedFile → MergeSt
  | [] => st
  | f :: rest => mergeLoop env totalFiles (stepFile env totalFiles st f) rest

/-- Metadata block of the unified record (the wall-clock `created` timestamp
is not modelled). -/
structure RecordMetadata where
  version : String
  pipelines : List String
  source : String
  processing_config : Option Json
  processing_time : Option Int
  total_duration : Option Json
deriving Repr

/-- The unified annotation record (`StandardAnnotationData`): a pipeline key
is `none` when absent, never `some []` by construction of `buildData`. -/
structure StandardAnnotationData where
  video_info : VideoInfo
  metadata : RecordMetadata
  person_tracking : Option (List Json)
  speech_recognition : Option (List Json)
  speaker_diarization : Option (List Json)
  scene_detection : Option (List Json)
  face_analysis : Option (List Json)
  audio_file : Option DFile
deriving Repr

/-- Assembly of the unified record from the final accumulators: each
pipeline payload is attached only when non-empty. -/
def buildData (vi : VideoInfo) (c : MergeCore) : StandardAnnotationData :=
  { video_info := vi,
    metadata := { version := "1.1.1", pipelines := c.pipelinesFound,
                  source := "videoannotator",
                  processing_config := c.processingConfig,
                  processing_time := c.processingTime,
                  total_duration := c.totalDuration },
    person_tracking := if c.personTracking.isEmpty then none else some c.personTracking,
    speech_recognition := if c.speechRecognition.isEmpty then none else some c.speechRecognition,
    speaker_diarization := if c.speakerDiarization.isEmpty then none else some c.speakerDiarization,
    scene_detection := if c.sceneDetection.isEmpty then none else some c.sceneDetection,
    face_analysis := if c.faceAnalysis.isEmpty then none else some c.faceAnalysis,
    audio_file := c.audioFile }

/-- Report accompanying a successful merge (the wall-clock
`processingTime` of the report is not modelled). -/
structure MergeMetadata where
  filesProcessed : Nat
  pipelinesFound : List String
  warnings : List String
deriving Repr

/-- Merge result (`ParseResult`). -/
structure ParseResult where
  data : StandardAnnotationData
  metadata : MergeMetadata
deriving Repr

/-- State after the complete-results phase: the first file classified
`complete_results` (if any) is extracted; on success the three pipeline
slots, the carried metadata and the found-pipeline names are populated and
the file is counted; on failure only a warning is recorded.  The progress
event for the bundle fires before the extraction is attempted. -/
def crPhase (env : Env) (totalFiles : Nat) (cr? : Option DetectedFile) : MergeSt :=
  match cr? with
  | none => ⟨initCore, 0, []⟩
  | some b =>
    let ev := ("Processing " ++ b.file.name, 0, totalFiles)
    match parseCompleteResults env b.file with
    | .ok cr =>
      { core := { initCore with
          personTracking := cr.personTracking,
          faceAnalysis := cr.faceAnalysis,
          sceneDetection := cr.sceneDetection,
          processingConfig := cr.config,
          processingTime := some cr.processingTime,
          totalDuration := cr.totalDuration,
          pipelinesFound :=
            (if cr.personTracking.isEmpty then [] else ["person_tracking"]) ++
            (if cr.faceAnalysis.isEmpty then [] else ["face_analysis"]) ++
            (if cr.sceneDetection.isEmpty then [] else ["scene_detection"]) },
        processedFiles := 1, progress := [ev] }
    | .error e =>
      { core := { initCore with warnings := [crFailMsg b e] },
        processedFiles := 0, progress := [ev] }

/-- The completeResultsFile of the merge: first file classified
`complete_results`. -/
def crFind (detectedFiles : List DetectedFile) : Option DetectedFile :=
  detectedFiles.find? (fun f => f.type == .complete_results)

/-- The files iterated by the loop: all input files except the bundle the
complete-results phase already processed. -/
def loopFilesOf (detectedFiles : List DetectedFile) : List DetectedFile :=
  detectedFiles.eraseP (fun f => f.type == .complete_results)

/-- State of the accumulators, the counter and the progress trace after the
complete-results phase and the file loop. -/
def mergeState (env : Env) (detectedFiles : List DetectedFile) : MergeSt :=
  mergeLoop env detectedFiles.length
    (crPhase env detectedFiles.length (crFind detectedFiles))
    (loopFilesOf detectedFiles)

/-- Merge engine `mergeAnnotationData`.  Returns the result (or the thrown
error) together with the trace of `onProgress` invocations, which fire even
when the merge later throws.  The loop skips the processed bundle by
reference identity; since `detectFileType` creates a fresh result per file
this equals erasing the first `complete_results` entry. -/
def mergeAnnotationData (env : Env) (detectedFiles : List DetectedFile) :
    Except String ParseResult × List (String × Nat × Nat) :=
  let totalFiles := detectedFiles.length
  let st2 := mergeState env detectedFiles
  match st2.core.videoFile with
  | none => (.error "No video file provided", st2.progress)
  | some vf =>
    let prog2 := st2.progress ++ [("Extracting video metadata", st2.processedFiles, totalFiles + 1)]
    match extractVideoInfo env vf with
    | .error e => (.error e, prog2)
    | .ok vi =>
      (.ok { data := buildData vi st2.core,
             metadata := { filesProcessed := st2.processedFiles,
                           pipelinesFound := st2.core.pipelinesFound,
                           warnings := st2.core.warnings } },
       prog2 ++ [("Merging complete", totalFiles + 1, totalFiles + 1)])

/-- Batch classifier `batchDetectFileTypes`: classify every file, then sort
by descending confidence.  `Array.prototype.sort` is stable (ES2019) and the
comparator `b.confidence - a.confidence` orders `a` before `b` exactly when
`a.confidence ≥ b.confidence`, which is the stable `mergeSort` under that
total preorder. -/
def batchDetectFileTypes (env : Env) (files : List DFile) : List DetectedFile :=
  (files.map (detectFileType env)).mergeSort (fun a b => b.confidence ≤ a.confidence)

/-- Entry of the summary's pipeline list. -/
structure PipelineEntry where
  name : String
  file : String
  confidence : ℚ
deriving Repr, DecidableEq

/-- Summary for UI display (`getFilesSummary`'s return shape). -/
structure FilesSummary where
  video : Option String
  audio : Option String
  pipelines : List PipelineEntry
  unknown : List String
deriving Repr, DecidableEq

/-- JavaScript string of a `FileType` (the `switch` compares these literals;
`detected.pipeline || detected.type` falls back to this string). -/
def FileType.jsName : FileType → String
  | .video => "video"
  | .audio => "audio"
  | .person_tracking => "person_tracking"
  | .speech_recognition => "speech_recognition"
  | .speaker_diarization => "speaker_diarization"
  | .scene_detection => "scene_detection"
  | .face_analysis => "face_analysis"
  | .complete_results => "complete_results"
  | .unknown => "unknown"

/-- Name used for a summary pipeline entry: `detected.pipeline ||
detected.type` (an empty pipeline string is falsy). -/
def entryName (d : DetectedFile) : String :=
  match d.pipeline with
  | some s => if s = "" then d.type.jsName else s
  | none => d.type.jsName

/-- One summary update (the body of the `for` loop of `getFilesSummary`). -/
def summaryStep (s : FilesSummary) (d : DetectedFile) : FilesSummary :=
  match d.type with
  | .video => { s with video := some d.file.name }
  | .audio => { s with audio := some d.file.name }
  | .unknown => { s with unknown := s.unknown ++ [d.file.name] }
  | _ => { s with pipelines := s.pipelines ++ [⟨entryName d, d.file.name, d.confidence⟩] }

/-- Auxiliary recursion of `getFilesSummary`. -/
def summaryGo (s : FilesSummary) : List DetectedFile → FilesSummary
  | [] => s
  | d :: rest => summaryGo (summaryStep s d) rest

/-- Summary view `getFilesSummary`. -/
def getFilesSummary (detectedFiles : List DetectedFile) : FilesSummary :=
  summaryGo ⟨none, none, [], []⟩ detectedFiles

/-! ## Basic lemmas about the merge loop -/

theorem mergeLoop_core (env : Env) (n : Nat) :
    ∀ (l : List DetectedFile) (st : MergeSt),
      (mergeLoop env n st l).core = l.foldl (stepCore env) st.core := by
  intro l
  induction l with
  | nil => intro st; rfl
  | cons f rest ih => intro st; simp only [mergeLoop, ih, stepFile, List.foldl_cons]

theorem mergeLoop_processed (env : Env) (n : Nat) :
    ∀ (l : List DetectedFile) (st : MergeSt),
      (mergeLoop env n st l).processedFiles = st.processedFiles + l.length := by
  intro l
  induction l with
  | nil => intro st; rfl
  | cons f rest ih =>
    intro st
    simp [mergeLoop, ih, stepFile]
    omega

theorem mergeLoop_progress_len (env : Env) (n : Nat) :
    ∀ (l : List DetectedFile) (st : MergeSt),
      (mergeLoop env n st l).progress.length = st.progress.length + l.length := by
  intro l
  induction l with
  | nil => intro st; rfl
  | cons f rest ih =>
    intro st
    simp [mergeLoop, ih, stepFile]
    omega

theorem stepCore_videoFile (env : Env) (c : MergeCore) (f : DetectedFile) :
    (stepCore env c f).videoFile
      = if f.type == FileType.video then some f.file else c.videoFile := by
  unfold stepCore
  cases h : f.type <;> simp_all <;> (repeat' split) <;> rfl

theorem stepCore_audioFile (env : Env) (c : MergeCore) (f : DetectedFile) :
    (stepCore env c f).audioFile
      = if f.type == FileType.audio then some f.file else c.audioFile := by
  unfold stepCore
  cases h : f.type <;> simp_all <;> (repeat' split) <;> rfl

theorem foldlCore_videoFile (env : Env) :
    ∀ (l : List DetectedFile) (c : MergeCore),
      (l.foldl (stepCore env) c).videoFile
        = ((l.filter (fun f => f.type == FileType.video)).getLast?).elim c.videoFile
            (fun f => some f.file) := by
  intro l
  induction l with
  | nil => intro c; rfl
  | cons f rest ih =>
    intro c
    rw [List.foldl_cons, ih, List.filter_cons]
    by_cases h : (f.type == FileType.video) = true
    · rw [if_pos h, List.getLast?_cons]
      have hv : (stepCore env c f).videoFile = some f.file := by
        rw [stepCore_videoFile, if_pos h]
      rw [hv]
      cases hlast : (rest.filter (fun f => f.type == FileType.video)).getLast? with
      | none => simp [hlast]
      | some y => simp [hlast]
    · rw [if_neg h]
      have hv : (stepCore env c f).videoFile = c.videoFile := by
        rw [stepCore_videoFile, if_neg h]
      rw [hv]

theorem foldlCore_audioFile (env : Env) :
    ∀ (l : List DetectedFile) (c : MergeCore),
      (l.foldl (stepCore env) c).audioFile
        = ((l.filter (fun f => f.type == FileType.audio)).getLast?).elim c.audioFile
            (fun f => some f.file) := by
  intro l
  induction l with
  | nil => intro c; rfl
  | cons f rest ih =>
    intro c
    rw [List.foldl_cons, ih, List.filter_cons]
    by_cases h : (f.type == FileType.audio) = true
    · rw [if_pos h, List.getLast?_cons]
      have hv : (stepCore env c f).audioFile = some f.file := by
        rw [stepCore_audioFile, if_pos h]
      rw [hv]
      cases hlast : (rest.filter (fun f => f.type == FileType.audio)).getLast? with
      | none => simp [hlast]
      | some y => simp [hlast]
    · rw [if_neg h]
      have hv : (stepCore env c f).audioFile = c.audioFile := by
        rw [stepCore_audioFile, if_neg h]
      rw [hv]

theorem crPhase_videoFile (env : Env) (n : Nat) (x : Option DetectedFile) :
    (crPhase env n x).core.videoFile = none := by
  unfold crPhase
  cases x with
  | none => rfl
  | some b => simp only; split <;> rfl

theorem crPhase_processed_none (env : Env) (n : Nat) :
    (crPhase env n none).processedFiles = 0 := rfl

theorem crPhase_processed_ok (env : Env) (n : Nat) (b : DetectedFile) (cr : CRParsed)
    (h : parseCompleteResults env b.file = Except.ok cr) :
    (crPhase env n (some b)).processedFiles = 1 := by
  simp [crPhase, h]

theorem crPhase_processed_err (env : Env) (n : Nat) (b : DetectedFile) (e : String)
    (h : parseCompleteResults env b.file = Except.error e) :
    (crPhase env n (some b)).processedFiles = 0 := by
  simp [crPhase, h]

theorem crPhase_progress_none (env : Env) (n : Nat) :
    (crPhase env n none).progress = [] := rfl

theorem crPhase_progress_some (env : Env) (n : Nat) (b : DetectedFile) :
    (crPhase env n (some b)).progress = [("Processing " ++ b.file.name, 0, n)] := by
  cases hm : parseCompleteResults env b.file <;> simp [crPhase, hm]

theorem loopFilesOf_of_none (files : List DetectedFile) (h : crFind files = none) :
    loopFilesOf files = files := by
  apply List.eraseP_of_forall_not
  intro a ha
  exact List.find?_eq_none.mp h a ha

theorem loopFilesOf_length_of_some (files : List DetectedFile) (b : DetectedFile)
    (h : crFind files = some b) :
    (loopFilesOf files).length + 1 = files.length := by
  unfold crFind at h
  have hb := List.mem_of_find?_eq_some h
  have hp := @List.find?_some _ (fun f => f.type == FileType.complete_results) b files h
  have hlen := @List.length_eraseP_of_mem _ files b
    (fun f => f.type == FileType.complete_results) hb hp
  have hpos := List.length_pos_of_mem hb
  unfold loopFilesOf
  omega

theorem loopFilesOf_sublist (files : List DetectedFile) :
    (loopFilesOf files).Sublist files :=
  List.eraseP_sublist files

/-- The merge expressed as a case split on the state after the loop
(definitional rephrasing of `mergeAnnotationData`). -/
theorem mergeAnnotationData_eq (env : Env) (files : List DetectedFile) :
    mergeAnnotationData env files =
      (match (mergeState env files).core.videoFile with
       | none => (Except.error "No video file provided", (mergeState env files).progress)
       | some vf =>
         match extractVideoInfo env vf with
         | .error e =>
           (Except.error e,
            (mergeState env files).progress ++
              [("Extracting video metadata", (mergeState env files).processedFiles,
                files.length + 1)])
         | .ok vi =>
           (Except.ok
              { data := buildData vi (mergeState env files).core,
                metadata :=
                  { filesProcessed := (mergeState env files).processedFiles,
                    pipelinesFound := (mergeState env files).core.pipelinesFound,
                    warnings := (mergeState env files).core.warnings } },
            ((mergeState env files).progress ++
               [("Extracting video metadata", (mergeState env files).processedFiles,
                 files.length + 1)]) ++
              [("Merging complete", files.length + 1, files.length + 1)])) := rfl

/-- First component of the merge, as a case split on the post-loop state. -/
theorem merge_fst_eq (env : Env) (files : List DetectedFile) :
    (mergeAnnotationData env files).1 =
      (match (mergeState env files).core.videoFile with
       | none => Except.error "No video file provided"
       | some vf =>
         match extractVideoInfo env vf with
         | .error e => Except.error e
         | .ok vi =>
           Except.ok
             { data := buildData vi (mergeState env files).core,
               metadata :=
                 { filesProcessed := (mergeState env files).processedFiles,
                   pipelinesFound := (mergeState env files).core.pipelinesFound,
                   warnings := (mergeState env files).core.warnings } }) := by
  rw [mergeAnnotationData_eq]
  cases hv : (mergeState env files).core.videoFile with
  | none => simp [hv]
  | some vf => cases he : extractVideoInfo env vf <;> simp [hv, he]

/-- Second component of the merge (the progress trace), as a case split. -/
theorem merge_snd_eq (env : Env) (files : List DetectedFile) :
    (mergeAnnotationData env files).2 =
      (match (mergeState env files).core.videoFile with
       | none => (mergeState env files).progress
       | some vf =>
         match extractVideoInfo env vf with
         | .error _ =>
           (mergeState env files).progress ++
             [("Extracting video metadata", (mergeState env files).processedFiles,
               files.length + 1)]
         | .ok _ =>
           ((mergeState env files).progress ++
              [("Extracting video metadata", (mergeState env files).processedFiles,
                files.length + 1)]) ++
             [("Merging complete", files.length + 1, files.length + 1)]) := by
  rw [mergeAnnotationData_eq]
  cases hv : (mergeState env files).core.videoFile with
  | none => simp [hv]
  | some vf => cases he : extractVideoInfo env vf <;> simp [hv, he]

/-- Any successful merge result is the assembly of the post-loop state. -/
theorem merge_ok_shape (env : Env) (files : List DetectedFile) (r : ParseResult)
    (h : (mergeAnnotationData env files).1 = Except.ok r) :
    r.metadata.filesProcessed = (mergeState env files).processedFiles ∧
    r.metadata.pipelinesFound = (mergeState env files).core.pipelinesFound ∧
    r.metadata.warnings = (mergeState env files).core.warnings ∧
    ∃ vi, r.data = buildData vi (mergeState env files).core := by
  rw [merge_fst_eq] at h
  split at h
  · simp at h
  · split at h
    · simp at h
    · simp only [Except.ok.injEq] at h
      subst h
      exact ⟨rfl, rfl, rfl, _, rfl⟩

/-! ## Claim C1: merging without a video file -/

/-- C1: for every input list of classified files containing no file of type
video, `mergeAnnotationData` fails with the missing-video error and returns
no record; the failure is raised only after all files have been iterated
(one progress invocation was emitted for every input file, and none for the
post-loop stages). -/
theorem merge_missing_video (env : Env) (files : List DetectedFile)
    (h : ∀ f ∈ files, f.type ≠ FileType.video) :
    (mergeAnnotationData env files).1 = Except.error "No video file provided" ∧
    (mergeAnnotationData env files).2.length = files.length := by
  have hfilter : (loopFilesOf files).filter (fun f => f.type == FileType.video) = [] := by
    rw [List.filter_eq_nil_iff]
    intro f hf
    have hmem : f ∈ files := (loopFilesOf_sublist files).subset hf
    simp [h f hmem]
  have hvideo : (mergeState env files).core.videoFile = none := by
    rw [mergeState, mergeLoop_core, foldlCore_videoFile, hfilter]
    simp [crPhase_videoFile]
  have hvideo' : (mergeState env files).core.videoFile = none := by
    rw [mergeState] at hvideo ⊢; exact hvideo
  refine ⟨?_, ?_⟩
  · rw [merge_fst_eq]
    simp [hvideo]
  · rw [merge_snd_eq]
    simp only [hvideo]
    rw [mergeState, mergeLoop_progress_len]
    cases hcr : crFind files with
    | none =>
      rw [crPhase_progress_none, loopFilesOf_of_none files hcr]
      simp
    | some b =>
      rw [crPhase_progress_some]
      have := loopFilesOf_length_of_some files b hcr
      simp only [List.length_singleton]
      omega

def envOk : Env :=
  { parseJson := fun _ => .error "Unexpected end of JSON input",
    parseWebVTT := fun _ => .ok [.str "cue"],
    parseRTTM := fun _ => .ok [.str "segment"],
    parseCOCOPersonData := fun _ => .ok [.str "person"],
    parseSceneDetection := fun _ => .ok [.str "scene"],
    videoMetadata := fun _ => some (120, 640, 480) }

def wVideo : DetectedFile := ⟨⟨"clip.mp4", "video/mp4", ""⟩, .video, none, 0.95⟩

def wSpeech : DetectedFile :=
  ⟨⟨"clip.vtt", "", "WEBVTT"⟩, .speech_recognition, some "speech_recognition", 0.9⟩

def wSpeech2 : DetectedFile :=
  ⟨⟨"other.vtt", "", "WEBVTT"⟩, .speech_recognition, some "speech_recognition", 0.9⟩

def wUnknown : DetectedFile := ⟨⟨"notes.txt", "", "hello"⟩, .unknown, none, 0⟩

/-- Witness for C1 at a concrete input without a video file. -/
theorem merge_missing_video_witness :
    (mergeAnnotationData envOk [wSpeech, wUnknown]).1
        = Except.error "No video file provided" ∧
    (mergeAnnotationData envOk [wSpeech, wUnknown]).2.length = 2 :=
  merge_missing_video envOk [wSpeech, wUnknown]
    (by intro f hf; fin_cases hf <;> decide)

/-! ## Claim C4: no pipeline key maps to an empty sequence -/

theorem buildData_no_empty (vi : VideoInfo) (c : MergeCore) :
    (buildData vi c).person_tracking ≠ some [] ∧
    (buildData vi c).speech_recognition ≠ some [] ∧
    (buildData vi c).speaker_diarization ≠ some [] ∧
    (buildData vi c).scene_detection ≠ some [] ∧
    (buildData vi c).face_analysis ≠ some [] := by
  refine ⟨?_, ?_, ?_, ?_, ?_⟩ <;>
    · simp only [buildData]
      split
      · simp
      · simp_all [List.isEmpty_iff]

/-- C4: for every input list on which the merge succeeds, the returned
record maps none of the five pipeline keys to an empty sequence (an empty
accumulated sequence leaves the key absent). -/
theorem merge_record_no_empty_pipeline (env : Env) (files : List DetectedFile)
    (r : ParseResult) (h : (mergeAnnotationData env files).1 = Except.ok r) :
    r.data.person_tracking ≠ some [] ∧
    r.data.speech_recognition ≠ some [] ∧
    r.data.speaker_diarization ≠ some [] ∧
    r.data.scene_detection ≠ some [] ∧
    r.data.face_analysis ≠ some [] := by
  obtain ⟨-, -, -, vi, hdata⟩ := merge_ok_shape env files r h
  rw [hdata]
  exact buildData_no_empty vi _

/-- The result of the concrete successful merge used by the C4 witness. -/
def rOkW : ParseResult :=
  { data := { video_info := { filename := "clip.mp4", duration := 120,
                              width := 640, height := 480, frame_rate := 30 },
              metadata := { version := "1.1.1",
                            pipelines := ["speech_recognition"],
                            source := "videoannotator",
                            processing_config := none,
                            processing_time := none,
                            total_duration := none },
              person_tracking := none,
              speech_recognition := some [Json.str "cue"],
              speaker_diarization := none,
              scene_detection := none,
              face_analysis := none,
              audio_file := none },
    metadata := { filesProcessed := 2,
                  pipelinesFound := ["speech_recognition"],
                  warnings := [] } }

/-- Witness for C4 at a concrete successful merge. -/
theorem merge_record_no_empty_pipeline_witness :
    rOkW.data.person_tracking ≠ some [] ∧
    rOkW.data.speech_recognition ≠ some [] ∧
    rOkW.data.speaker_diarization ≠ some [] ∧
    rOkW.data.scene_detection ≠ some [] ∧
    rOkW.data.face_analysis ≠ some [] :=
  merge_record_no_empty_pipeline envOk [wVideo, wSpeech] rOkW (by rfl)

/-! ## Claim C9: the files-processed count -/

/-- C9: on a successful merge, `files_processed` equals the number of input
files when no complete-results file is present or when its extraction
succeeds, and the number of input files minus one when the extraction fails
(the failed bundle is not counted); every loop file — unknown-typed or
failing — is counted. -/
theorem merge_files_processed (env : Env) (files : List DetectedFile)
    (r : ParseResult) (h : (mergeAnnotationData env files).1 = Except.ok r) :
    (crFind files = none → r.metadata.filesProcessed = files.length) ∧
    (∀ b cr, crFind files = some b → parseCompleteResults env b.file = Except.ok cr →
      r.metadata.filesProcessed = files.length) ∧
    (∀ b e, crFind files = some b → parseCompleteResults env b.file = Except.error e →
      r.metadata.filesProcessed + 1 = files.length) := by
  obtain ⟨hfp, -, -, -⟩ := merge_ok_shape env files r h
  rw [hfp, mergeState, mergeLoop_processed]
  refine ⟨?_, ?_, ?_⟩
  · intro hn
    rw [hn, crPhase_processed_none, loopFilesOf_of_none files hn]
    simp
  · intro b cr hs hok
    rw [hs, crPhase_processed_ok env _ b cr hok]
    have := loopFilesOf_length_of_some files b hs
    omega
  · intro b e hs herr
    rw [hs, crPhase_processed_err env _ b e herr]
    have := loopFilesOf_length_of_some files b hs
    omega

def wCR : DetectedFile :=
  ⟨⟨"complete_results.json", "application/json", "CRX"⟩, .complete_results,
    some "complete_results", 0.95⟩

/-- Witness for C9: a concrete merge whose complete-results extraction
fails counts one file less than the input length. -/
theorem merge_files_processed_witness :
    2 + 1 = ([wCR, wVideo, wUnknown] : List DetectedFile).length :=
  (merge_files_processed envOk [wCR, wVideo, wUnknown]
    { data := { video_info := { filename := "clip.mp4", duration := 120,
                                width := 640, height := 480, frame_rate := 30 },
                metadata := { version := "1.1.1", pipelines := [],
                              source := "videoannotator",
                              processing_config := none, processing_time := none,
                              total_duration := none },
                person_tracking := none, speech_recognition := none,
                speaker_diarization := none, scene_detection := none,
                face_analysis := none, audio_file := none },
      metadata := { filesProcessed := 2, pipelinesFound := [],
                    warnings := ["Failed to parse complete results complete_results.json: Unexpected end of JSON input",
                                 "Could not determine type of file: notes.txt"] } }
    (by rfl)).2.2 wCR "Unexpected end of JSON input" (by rfl) (by rfl)

/-! ## Claim C3: duplicates in `pipelines_found` -/

/-- C3 counterexample: with two speech-recognition files (plus a video), the
merge succeeds and `pipelines_found` lists `speech_recognition` twice, so
the list is not duplicate-free. -/
theorem pipelines_found_duplicate_counterexample :
    (Option.map (fun r => r.metadata.pipelinesFound)
        (mergeAnnotationData envOk [wVideo, wSpeech, wSpeech2]).1.toOption)
      = some ["speech_recognition", "speech_recognition"] ∧
    ¬ (["speech_recognition", "speech_recognition"] : List String).Nodup := by
  exact ⟨rfl, by decide⟩

/-- Number of files of a given detected type. -/
def countType (l : List DetectedFile) (t : FileType) : Nat :=
  (l.filter (fun f => f.type == t)).length

/-- At most one input file is classified to each annotation pipeline type. -/
def AtMostOnePerPipeline (l : List DetectedFile) : Prop :=
  countType l .person_tracking ≤ 1 ∧ countType l .face_analysis ≤ 1 ∧
  countType l .speech_recognition ≤ 1 ∧ countType l .speaker_diarization ≤ 1 ∧
  countType l .scene_detection ≤ 1

theorem countType_cons (f : DetectedFile) (rest : List DetectedFile) (t : FileType) :
    countType (f :: rest) t = (if f.type = t then 1 else 0) + countType rest t := by
  by_cases h : f.type = t
  · simp [countType, List.filter_cons, h]
    omega
  · simp [countType, List.filter_cons, h]

theorem countType_tail_le (f : DetectedFile) (rest : List DetectedFile) (t : FileType) :
    countType rest t ≤ countType (f :: rest) t := by
  rw [countType_cons]
  omega

theorem countType_sublist_le {l₁ l₂ : List DetectedFile} (h : l₁.Sublist l₂)
    (t : FileType) : countType l₁ t ≤ countType l₂ t :=
  List.Sublist.length_le (List.Sublist.filter (fun f : DetectedFile => f.type == t) h)

theorem atMostOne_sublist {l₁ l₂ : List DetectedFile} (h : l₁.Sublist l₂)
    (hc : AtMostOnePerPipeline l₂) : AtMostOnePerPipeline l₁ := by
  obtain ⟨c1, c2, c3, c4, c5⟩ := hc
  have := countType_sublist_le h
  exact ⟨le_trans (this _) c1, le_trans (this _) c2, le_trans (this _) c3,
         le_trans (this _) c4, le_trans (this _) c5⟩

theorem atMostOne_tail {f : DetectedFile} {rest : List DetectedFile}
    (hc : AtMostOnePerPipeline (f :: rest)) : AtMostOnePerPipeline rest :=
  atMostOne_sublist (List.sublist_cons_self f rest) hc

/-- Invariant carried through the merge loop: the found-pipeline list has no
duplicates, and whenever a pipeline name is already listed, either its slot
is non-empty (so later files of that type are skipped) or no file of that
type remains. -/
def LoopInv (c : MergeCore) (rest : List DetectedFile) : Prop :=
  c.pipelinesFound.Nodup ∧
  ("person_tracking" ∈ c.pipelinesFound →
     c.personTracking ≠ [] ∨ countType rest .person_tracking = 0) ∧
  ("face_analysis" ∈ c.pipelinesFound →
     c.faceAnalysis ≠ [] ∨ countType rest .face_analysis = 0) ∧
  ("scene_detection" ∈ c.pipelinesFound →
     c.sceneDetection ≠ [] ∨ countType rest .scene_detection = 0) ∧
  ("speech_recognition" ∈ c.pipelinesFound → countType rest .speech_recognition = 0) ∧
  ("speaker_diarization" ∈ c.pipelinesFound → countType rest .speaker_diarization = 0)

theorem loopInv_untouched {c c' : MergeCore} {f : DetectedFile}
    {rest : List DetectedFile}
    (hfound : c'.pipelinesFound = c.pipelinesFound)
    (hp' : c'.personTracking = c.personTracking)
    (hf' : c'.faceAnalysis = c.faceAnalysis)
    (hs' : c'.sceneDetection = c.sceneDetection)
    (hinv : LoopInv c (f :: rest)) : LoopInv c' rest := by
  obtain ⟨hnd, hp, hf, hsc, hsp, hsd⟩ := hinv
  have tle := fun t => countType_tail_le f rest t
  rw [LoopInv, hfound, hp', hf', hs']
  refine ⟨hnd, ?_, ?_, ?_, ?_, ?_⟩
  · intro hm
    rcases hp hm with h | h
    · exact Or.inl h
    · right; have := tle .person_tracking; omega
  · intro hm
    rcases hf hm with h | h
    · exact Or.inl h
    · right; have := tle .face_analysis; omega
  · intro hm
    rcases hsc hm with h | h
    · exact Or.inl h
    · right; have := tle .scene_detection; omega
  · intro hm; have := hsp hm; have := tle .speech_recognition; omega
  · intro hm; have := hsd hm; have := tle .speaker_diarization; omega

theorem stepCore_inv (env : Env) (c : MergeCore) (f : DetectedFile)
    (rest : List DetectedFile) (hinv : LoopInv c (f :: rest))
    (hcnt : AtMostOnePerPipeline (f :: rest)) :
    LoopInv (stepCore env c f) rest := by
  obtain ⟨c1, c2, c3, c4, c5⟩ := hcnt
  cases hft : f.type with
  | video =>
    have hstep : stepCore env c f = { c with videoFile := some f.file } := by
      simp [stepCore, hft]
    rw [hstep]
    exact loopInv_untouched rfl rfl rfl rfl hinv
  | audio =>
    have hstep : stepCore env c f = { c with audioFile := some f.file } := by
      simp [stepCore, hft]
    rw [hstep]
    exact loopInv_untouched rfl rfl rfl rfl hinv
  | complete_results =>
    have hstep : stepCore env c f = c := by simp [stepCore, hft]
    rw [hstep]
    exact loopInv_untouched rfl rfl rfl rfl hinv
  | unknown =>
    have hstep : stepCore env c f = { c with warnings := c.warnings ++ [unknownMsg f] } := by
      simp [stepCore, hft]
    rw [hstep]
    exact loopInv_untouched rfl rfl rfl rfl hinv
  | person_tracking =>
    have h1 := countType_cons f rest .person_tracking
    rw [hft] at h1
    simp only [if_pos] at h1
    by_cases hpe : c.personTracking.isEmpty
    · cases hdec : env.parseCOCOPersonData f.file with
      | ok l =>
        have hstep : stepCore env c f =
            { c with
              personTracking := l,
              pipelinesFound := c.pipelinesFound ++ ["person_tracking"] } := by
          simp [stepCore, hft, hpe, hdec]
        have hcempty : c.personTracking = [] := List.isEmpty_iff.mp hpe
        have hnotmem : "person_tracking" ∉ c.pipelinesFound := by
          intro hm
          rcases hinv.2.1 hm with h | h
          · exact h hcempty
          · omega
        have hrest0 : countType rest .person_tracking = 0 := by omega
        rw [hstep]
        obtain ⟨hnd, hp, hf, hsc, hsp, hsd⟩ := hinv
        have tle := fun t => countType_tail_le f rest t
        refine ⟨?_, ?_, ?_, ?_, ?_, ?_⟩
        · simp [List.nodup_append, hnd, hnotmem]
        · intro hm; exact Or.inr hrest0
        · intro hm
          have hm' : "face_analysis" ∈ c.pipelinesFound := by simpa using hm
          rcases hf hm' with h | h
          · exact Or.inl h
          · right; have := tle .face_analysis; omega
        · intro hm
          have hm' : "scene_detection" ∈ c.pipelinesFound := by simpa using hm
          rcases hsc hm' with h | h
          · exact Or.inl h
          · right; have := tle .scene_detection; omega
        · intro hm
          have hm' : "speech_recognition" ∈ c.pipelinesFound := by simpa using hm
          have := hsp hm'; have := tle .speech_recognition; omega
        · intro hm
          have hm' : "speaker_diarization" ∈ c.pipelinesFound := by simpa using hm
          have := hsd hm'; have := tle .speaker_diarization; omega
      | error e =>
        have hstep : stepCore env c f = { c with warnings := c.warnings ++ [failMsg f e] } := by
          simp [stepCore, hft, hpe, hdec]
        rw [hstep]
        exact loopInv_untouched rfl rfl rfl rfl hinv
    · have hstep : stepCore env c f = c := by simp [stepCore, hft, hpe]
      rw [hstep]
      exact loopInv_untouched rfl rfl rfl rfl hinv
  | face_analysis =>
    have h1 := countType_cons f rest .face_analysis
    rw [hft] at h1
    simp only [if_pos] at h1
    by_cases hpe : c.faceAnalysis.isEmpty
    · cases hdec : parseFaceAnalysis env f.file with
      | ok l =>
        have hstep : stepCore env c f =
            { c with
              faceAnalysis := l,
              pipelinesFound := c.pipelinesFound ++ ["face_analysis"] } := by
          simp [stepCore, hft, hpe, hdec]
        have hcempty : c.faceAnalysis = [] := List.isEmpty_iff.mp hpe
        have hnotmem : "face_analysis" ∉ c.pipelinesFound := by
          intro hm
          rcases hinv.2.2.1 hm with h | h
          · exact h hcempty
          · omega
        have hrest0 : countType rest .face_analysis = 0 := by omega
        rw [hstep]
        obtain ⟨hnd, hp, hf, hsc, hsp, hsd⟩ := hinv
        have tle := fun t => countType_tail_le f rest t
        refine ⟨?_, ?_, ?_, ?_, ?_, ?_⟩
        · simp [List.nodup_append, hnd, hnotmem]
        · intro hm
          have hm' : "person_tracking" ∈ c.pipelinesFound := by simpa using hm
          rcases hp hm' with h | h
          · exact Or.inl h
          · right; have := tle .person_tracking; omega
        · intro hm; exact Or.inr hrest0
        · intro hm
          have hm' : "scene_detection" ∈ c.pipelinesFound := by simpa using hm
          rcases hsc hm' with h | h
          · exact Or.inl h
          · right; have := tle .scene_detection; omega
        · intro hm
          have hm' : "speech_recognition" ∈ c.pipelinesFound := by simpa using hm
          have := hsp hm'; have := tle .speech_recognition; omega
        · intro hm
          have hm' : "speaker_diarization" ∈ c.pipelinesFound := by simpa using hm
          have := hsd hm'; have := tle .speaker_diarization; omega
      | error e =>
        have hstep : stepCore env c f = { c with warnings := c.warnings ++ [failMsg f e] } := by
          simp [stepCore, hft, hpe, hdec]
        rw [hstep]
        exact loopInv_untouched rfl rfl rfl rfl hinv
    · have hstep : stepCore env c f = c := by simp [stepCore, hft, hpe]
      rw [hstep]
      exact loopInv_untouched rfl rfl rfl rfl hinv
  | scene_detection =>
    have h1 := countType_cons f rest .scene_detection
    rw [hft] at h1
    simp only [if_pos] at h1
    by_cases hpe : c.sceneDetection.isEmpty
    · cases hdec : env.parseSceneDetection f.file with
      | ok l =>
        have hstep : stepCore env c f =
            { c with
              sceneDetection := l,
              pipelinesFound := c.pipelinesFound ++ ["scene_detection"] } := by
          simp [stepCore, hft, hpe, hdec]
        have hcempty : c.sceneDetection = [] := List.isEmpty_iff.mp hpe
        have hnotmem : "scene_detection" ∉ c.pipelinesFound := by
          intro hm
          rcases hinv.2.2.2.1 hm with h | h
          · exact h hcempty
          · omega
        have hrest0 : countType rest .scene_detection = 0 := by omega
        rw [hstep]
        obtain ⟨hnd, hp, hf, hsc, hsp, hsd⟩ := hinv
        have tle := fun t => countType_tail_le f rest t
        refine ⟨?_, ?_, ?_, ?_, ?_, ?_⟩
        · simp [List.nodup_append, hnd, hnotmem]
        · intro hm
          have hm' : "person_tracking" ∈ c.pipelinesFound := by simpa using hm
          rcases hp hm' with h | h
          · exact Or.inl h
          · right; have := tle .person_tracking; omega
        · intro hm
          have hm' : "face_analysis" ∈ c.pipelinesFound := by simpa using hm
          rcases hf hm' with h | h
          · exact Or.inl h
          · right; have := tle .face_analysis; omega
        · intro hm; exact Or.inr hrest0
        · intro hm
          have hm' : "speech_recognition" ∈ c.pipelinesFound := by simpa using hm
          have := hsp hm'; have := tle .speech_recognition; omega
        · intro hm
          have hm' : "speaker_diarization" ∈ c.pipelinesFound := by simpa using hm
          have := hsd hm'; have := tle .speaker_diarization; omega
      | error e =>
        have hstep : stepCore env c f = { c with warnings := c.warnings ++ [failMsg f e] } := by
          simp [stepCore, hft, hpe, hdec]
        rw [hstep]
        exact loopInv_untouched rfl rfl rfl rfl hinv
    · have hstep : stepCore env c f = c := by simp [stepCore, hft, hpe]
      rw [hstep]
      exact loopInv_untouched rfl rfl rfl rfl hinv
  | speech_recognition =>
    have h1 := countType_cons f rest .speech_recognition
    rw [hft] at h1
    simp only [if_pos] at h1
    cases hdec : env.parseWebVTT f.file with
    | ok l =>
      have hstep : stepCore env c f =
          { c with
            speechRecognition := l,
            pipelinesFound := c.pipelinesFound ++ ["speech_recognition"] } := by
        simp [stepCore, hft, hdec]
      have hnotmem : "speech_recognition" ∉ c.pipelinesFound := by
        intro hm
        have := hinv.2.2.2.2.1 hm
        omega
      have hrest0 : countType rest .speech_recognition = 0 := by omega
      rw [hstep]
      obtain ⟨hnd, hp, hf, hsc, hsp, hsd⟩ := hinv
      have tle := fun t => countType_tail_le f rest t
      refine ⟨?_, ?_, ?_, ?_, ?_, ?_⟩
      · simp [List.nodup_append, hnd, hnotmem]
      · intro hm
        have hm' : "person_tracking" ∈ c.pipelinesFound := by simpa using hm
        rcases hp hm' with h | h
        · exact Or.inl h
        · right; have := tle .person_tracking; omega
      · intro hm
        have hm' : "face_analysis" ∈ c.pipelinesFound := by simpa using hm
        rcases hf hm' with h | h
        · exact Or.inl h
        · right; have := tle .face_analysis; omega
      · intro hm
        have hm' : "scene_detection" ∈ c.pipelinesFound := by simpa using hm
        rcases hsc hm' with h | h
        · exact Or.inl h
        · right; have := tle .scene_detection; omega
      · intro hm; exact hrest0
      · intro hm
        have hm' : "speaker_diarization" ∈ c.pipelinesFound := by simpa using hm
        have := hsd hm'; have := tle .speaker_diarization; omega
    | error e =>
      have hstep : stepCore env c f = { c with warnings := c.warnings ++ [failMsg f e] } := by
        simp [stepCore, hft, hdec]
      rw [hstep]
      exact loopInv_untouched rfl rfl rfl rfl hinv
  | speaker_diarization =>
    have h1 := countType_cons f rest .speaker_diarization
    rw [hft] at h1
    simp only [if_pos] at h1
    cases hdec : env.parseRTTM f.file with
    | ok l =>
      have hstep : stepCore env c f =
          { c with
            speakerDiarization := l,
            pipelinesFound := c.pipelinesFound ++ ["speaker_diarization"] } := by
        simp [stepCore, hft, hdec]
      have hnotmem : "speaker_diarization" ∉ c.pipelinesFound := by
        intro hm
        have := hinv.2.2.2.2.2 hm
        omega
      have hrest0 : countType rest .speaker_diarization = 0 := by omega
      rw [hstep]
      obtain ⟨hnd, hp, hf, hsc, hsp, hsd⟩ := hinv
      have tle := fun t => countType_tail_le f rest t
      refine ⟨?_, ?_, ?_, ?_, ?_, ?_⟩
      · simp [List.nodup_append, hnd, hnotmem]
      · intro hm
        have hm' : "person_tracking" ∈ c.pipelinesFound := by simpa using hm
        rcases hp hm' with h | h
        · exact Or.inl h
        · right; have := tle .person_tracking; omega
      · intro hm
        have hm' : "face_analysis" ∈ c.pipelinesFound := by simpa using hm
        rcases hf hm' with h | h
        · exact Or.inl h
        · right; have := tle .face_analysis; omega
      · intro hm
        have hm' : "scene_detection" ∈ c.pipelinesFound := by simpa using hm
        rcases hsc hm' with h | h
        · exact Or.inl h
        · right; have := tle .scene_detection; omega
      · intro hm
        have hm' : "speech_recognition" ∈ c.pipelinesFound := by simpa using hm
        have := hsp hm'; have := tle .speech_recognition; omega
      · intro hm; exact hrest0
    | error e =>
      have hstep : stepCore env c f = { c with warnings := c.warnings ++ [failMsg f e] } := by
        simp [stepCore, hft, hdec]
      rw [hstep]
      exact loopInv_untouched rfl rfl rfl rfl hinv

theorem loop_nodup (env : Env) :
    ∀ (l : List DetectedFile) (c : MergeCore),
      LoopInv c l → AtMostOnePerPipeline l →
      (l.foldl (stepCore env) c).pipelinesFound.Nodup := by
  intro l
  induction l with
  | nil => intro c hinv _; exact hinv.1
  | cons f rest ih =>
    intro c hinv hcnt
    rw [List.foldl_cons]
    exact ih _ (stepCore_inv env c f rest hinv hcnt) (atMostOne_tail hcnt)

theorem crPhase_inv (env : Env) (n : Nat) (x : Option DetectedFile) :
    ∀ rest, LoopInv (crPhase env n x).core rest := by
  intro rest
  cases x with
  | none =>
    refine ⟨?_, ?_, ?_, ?_, ?_, ?_⟩ <;> simp [crPhase, initCore]
  | some b =>
    cases hm : parseCompleteResults env b.file with
    | error e =>
      refine ⟨?_, ?_, ?_, ?_, ?_, ?_⟩ <;> simp [crPhase, hm, initCore]
    | ok cr =>
      have hcore : (crPhase env n (some b)).core.pipelinesFound =
          (if cr.personTracking.isEmpty then [] else ["person_tracking"]) ++
          (if cr.faceAnalysis.isEmpty then [] else ["face_analysis"]) ++
          (if cr.sceneDetection.isEmpty then [] else ["scene_detection"]) := by
        simp [crPhase, hm, initCore]
      refine ⟨?_, ?_, ?_, ?_, ?_, ?_⟩
      · rw [hcore]
        by_cases h1 : cr.personTracking.isEmpty <;>
          by_cases h2 : cr.faceAnalysis.isEmpty <;>
          by_cases h3 : cr.sceneDetection.isEmpty <;>
          simp [h1, h2, h3]
      · intro hmem
        left
        rw [hcore] at hmem
        have hne : ¬cr.personTracking.isEmpty := by
          by_contra hc
          simp [hc] at hmem
        have : (crPhase env n (some b)).core.personTracking = cr.personTracking := by
          simp [crPhase, hm]
        rw [this]
        simpa [List.isEmpty_iff] using hne
      · intro hmem
        left
        rw [hcore] at hmem
        have hne : ¬cr.faceAnalysis.isEmpty := by
          by_contra hc
          simp [hc] at hmem
        have : (crPhase env n (some b)).core.faceAnalysis = cr.faceAnalysis := by
          simp [crPhase, hm]
        rw [this]
        simpa [List.isEmpty_iff] using hne
      · intro hmem
        left
        rw [hcore] at hmem
        have hne : ¬cr.sceneDetection.isEmpty := by
          by_contra hc
          simp [hc] at hmem
        have : (crPhase env n (some b)).core.sceneDetection = cr.sceneDetection := by
          simp [crPhase, hm]
        rw [this]
        simpa [List.isEmpty_iff] using hne
      · intro hmem
        rw [hcore] at hmem
        exfalso
        simp at hmem
      · intro hmem
        rw [hcore] at hmem
        exfalso
        simp at hmem

/-- C3 (amended): when at most one input file is classified to each
annotation pipeline type, the `pipelines_found` list of the report (and the
metadata pipeline list of the record) of a successful merge lists each
pipeline name at most once.  (As stated for arbitrary inputs the claim is
false: two files of one pipeline type can produce a duplicate, see the
counterexample.) -/
theorem merge_pipelines_found_nodup (env : Env) (files : List DetectedFile)
    (r : ParseResult) (hcnt : AtMostOnePerPipeline files)
    (h : (mergeAnnotationData env files).1 = Except.ok r) :
    r.metadata.pipelinesFound.Nodup ∧ r.data.metadata.pipelines.Nodup := by
  obtain ⟨-, hpf, -, vi, hdata⟩ := merge_ok_shape env files r h
  have hnd : (mergeState env files).core.pipelinesFound.Nodup := by
    rw [mergeState, mergeLoop_core]
    exact loop_nodup env _ _ (crPhase_inv env files.length (crFind files) _)
      (atMostOne_sublist (loopFilesOf_sublist files) hcnt)
  constructor
  · rw [hpf]; exact hnd
  · rw [hdata]; simpa [buildData] using hnd

/-- Witness for the amended C3 at a concrete input. -/
theorem merge_pipelines_found_nodup_witness :
    rOkW.metadata.pipelinesFound.Nodup ∧ rOkW.data.metadata.pipelines.Nodup :=
  merge_pipelines_found_nodup envOk [wVideo, wSpeech] rOkW
    (by refine ⟨?_, ?_, ?_, ?_, ?_⟩ <;> decide) (by rfl)

/-! ## Claim C10: the summary view -/

/-- The categories whose entries land in the summary's pipeline list. -/
def isPipelineBearing : FileType → Bool
  | .person_tracking | .speech_recognition | .speaker_diarization
  | .scene_detection | .face_analysis | .complete_results => true
  | _ => false

theorem summaryStep_video (s : FilesSummary) (d : DetectedFile) :
    (summaryStep s d).video
      = if d.type == FileType.video then some d.file.name else s.video := by
  cases h : d.type <;> simp [summaryStep, h]

theorem summaryStep_audio (s : FilesSummary) (d : DetectedFile) :
    (summaryStep s d).audio
      = if d.type == FileType.audio then some d.file.name else s.audio := by
  cases h : d.type <;> simp [summaryStep, h]

theorem summaryStep_pipelines (s : FilesSummary) (d : DetectedFile) :
    (summaryStep s d).pipelines
      = if isPipelineBearing d.type
        then s.pipelines ++ [⟨entryName d, d.file.name, d.confidence⟩]
        else s.pipelines := by
  cases h : d.type <;> simp [summaryStep, h, isPipelineBearing]

theorem summaryStep_unknown (s : FilesSummary) (d : DetectedFile) :
    (summaryStep s d).unknown
      = if d.type == FileType.unknown
        then s.unknown ++ [d.file.name]
        else s.unknown := by
  cases h : d.type <;> simp [summaryStep, h]

theorem summaryGo_video :
    ∀ (l : List DetectedFile) (s : FilesSummary),
      (summaryGo s l).video
        = ((l.filter (fun d => d.type == FileType.video)).getLast?).elim s.video
            (fun d => some d.file.name) := by
  intro l
  induction l with
  | nil => intro s; rfl
  | cons d rest ih =>
    intro s
    rw [summaryGo, ih, List.filter_cons]
    by_cases h : (d.type == FileType.video) = true
    · rw [if_pos h, List.getLast?_cons]
      rw [summaryStep_video, if_pos h]
      cases hlast : (rest.filter (fun d => d.type == FileType.video)).getLast? with
      | none => simp [hlast]
      | some y => simp [hlast]
    · rw [if_neg h, summaryStep_video, if_neg h]

theorem summaryGo_audio :
    ∀ (l : List DetectedFile) (s : FilesSummary),
      (summaryGo s l).audio
        = ((l.filter (fun d => d.type == FileType.audio)).getLast?).elim s.audio
            (fun d => some d.file.name) := by
  intro l
  induction l with
  | nil => intro s; rfl
  | cons d rest ih =>
    intro s
    rw [summaryGo, ih, List.filter_cons]
    by_cases h : (d.type == FileType.audio) = true
    · rw [if_pos h, List.getLast?_cons]
      rw [summaryStep_audio, if_pos h]
      cases hlast : (rest.filter (fun d => d.type == FileType.audio)).getLast? with
      | none => simp [hlast]
      | some y => simp [hlast]
    · rw [if_neg h, summaryStep_audio, if_neg h]

theorem summaryGo_pipelines :
    ∀ (l : List DetectedFile) (s : FilesSummary),
      (summaryGo s l).pipelines
        = s.pipelines ++ (l.filter (fun d => isPipelineBearing d.type)).map
            (fun d => ⟨entryName d, d.file.name, d.confidence⟩) := by
  intro l
  induction l with
  | nil => intro s; simp [summaryGo]
  | cons d rest ih =>
    intro s
    rw [summaryGo, ih, List.filter_cons, summaryStep_pipelines]
    by_cases h : isPipelineBearing d.type
    · rw [if_pos h, if_pos h]
      simp
    · rw [if_neg h, if_neg h]

theorem summaryGo_unknown :
    ∀ (l : List DetectedFile) (s : FilesSummary),
      (summaryGo s l).unknown
        = s.unknown ++ (l.filter (fun d => d.type == FileType.unknown)).map
            (fun d => d.file.name) := by
  intro l
  induction l with
  | nil => intro s; simp [summaryGo]
  | cons d rest ih =>
    intro s
    rw [summaryGo, ih, List.filter_cons, summaryStep_unknown]
    by_cases h : (d.type == FileType.unknown) = true
    · rw [if_pos h, if_pos h]
      simp
    · rw [if_neg h, if_neg h]

/-- C10: the summary view names the last video-typed entry (absent when
there is none) and the last audio-typed entry, lists one
name/filename/confidence entry per pipeline-bearing input entry
(complete-results included) in input order, and lists the unknown-typed
filenames in input order. -/
theorem getFilesSummary_spec (files : List DetectedFile) :
    (getFilesSummary files).video
      = ((files.filter (fun d => d.type == FileType.video)).getLast?).map
          (fun d => d.file.name) ∧
    (getFilesSummary files).audio
      = ((files.filter (fun d => d.type == FileType.audio)).getLast?).map
          (fun d => d.file.name) ∧
    (getFilesSummary files).pipelines
      = (files.filter (fun d => isPipelineBearing d.type)).map
          (fun d => ⟨entryName d, d.file.name, d.confidence⟩) ∧
    (getFilesSummary files).unknown
      = (files.filter (fun d => d.type == FileType.unknown)).map
          (fun d => d.file.name) := by
  refine ⟨?_, ?_, ?_, ?_⟩
  · rw [getFilesSummary, summaryGo_video]
    cases (files.filter (fun d => d.type == FileType.video)).getLast? <;> rfl
  · rw [getFilesSummary, summaryGo_audio]
    cases (files.filter (fun d => d.type == FileType.audio)).getLast? <;> rfl
  · rw [getFilesSummary, summaryGo_pipelines]
    rfl
  · rw [getFilesSummary, summaryGo_unknown]
    rfl

/-! ## Claim C8: batch classification -/

/-- The comparator of `batchDetectFileTypes` as a Bool relation. -/
def confGE (a b : DetectedFile) : Bool := b.confidence ≤ a.confidence

theorem confGE_trans (a b c : DetectedFile) :
    confGE a b = true → confGE b c = true → confGE a c = true := by
  simp only [confGE, decide_eq_true_eq]
  exact fun h1 h2 => le_trans h2 h1

theorem confGE_total (a b : DetectedFile) : (confGE a b || confGE b a) = true := by
  simp only [confGE, Bool.or_eq_true, decide_eq_true_eq]
  exact le_total b.confidence a.confidence

/-- C8: the output of `batchDetectFileTypes` is a permutation of the
per-file classification results, its confidences are non-increasing, and
entries of equal confidence keep their original relative order. -/
theorem batchDetectFileTypes_spec (env : Env) (files : List DFile) :
    (batchDetectFileTypes env files).Perm (files.map (detectFileType env)) ∧
    (batchDetectFileTypes env files).Pairwise
      (fun a b => b.confidence ≤ a.confidence) ∧
    ∀ q : ℚ,
      (batchDetectFileTypes env files).filter (fun d => d.confidence = q)
        = (files.map (detectFileType env)).filter (fun d => d.confidence = q) := by
  have hle : batchDetectFileTypes env files
      = (files.map (detectFileType env)).mergeSort confGE := rfl
  refine ⟨?_, ?_, ?_⟩
  · rw [hle]
    exact List.mergeSort_perm _ _
  · rw [hle]
    have := List.sorted_mergeSort confGE_trans confGE_total
      (files.map (detectFileType env))
    exact this.imp (fun h => by simpa [confGE] using h)
  · intro q
    rw [hle]
    set l := files.map (detectFileType env) with hl
    have hsubl : (l.filter (fun d => d.confidence = q)).Sublist (l.mergeSort confGE) := by
      apply List.sublist_mergeSort confGE_trans confGE_total
      · apply List.pairwise_of_forall_mem_list
        intro a ha b hb
        have ha' := List.of_mem_filter ha
        have hb' := List.of_mem_filter hb
        simp only [decide_eq_true_eq] at ha' hb'
        simp [confGE, ha', hb']
      · exact List.filter_sublist l
    have hperm : ((l.mergeSort confGE).filter (fun d => d.confidence = q)).Perm
        (l.filter (fun d => d.confidence = q)) :=
      (List.mergeSort_perm l confGE).filter _
    have hsub2 : (l.filter (fun d => d.confidence = q)).Sublist
        ((l.mergeSort confGE).filter (fun d => d.confidence = q)) := by
      have := List.Sublist.filter (fun d : DetectedFile => d.confidence = q) hsubl
      rwa [List.filter_filter, List.filter_congr] at this
      intro a ha
      simp
    exact (List.Sublist.eq_of_length hsub2 hperm.length_eq.symm).symm

/-! ## Warnings accumulation lemmas -/

theorem stepCore_warnings_append (env : Env) (c : MergeCore) (f : DetectedFile) :
    ∃ t, (stepCore env c f).warnings = c.warnings ++ t := by
  cases hft : f.type <;> simp [stepCore, hft]
  case person_tracking =>
    by_cases hpe : c.personTracking.isEmpty <;> simp [hpe]
    cases hdec : env.parseCOCOPersonData f.file <;> simp [hdec]
  case face_analysis =>
    by_cases hpe : c.faceAnalysis.isEmpty <;> simp [hpe]
    cases hdec : parseFaceAnalysis env f.file <;> simp [hdec]
  case scene_detection =>
    by_cases hpe : c.sceneDetection.isEmpty <;> simp [hpe]
    cases hdec : env.parseSceneDetection f.file <;> simp [hdec]
  case speech_recognition =>
    cases hdec : env.parseWebVTT f.file <;> simp [hdec]
  case speaker_diarization =>
    cases hdec : env.parseRTTM f.file <;> simp [hdec]

theorem foldlCore_warnings_append (env : Env) :
    ∀ (l : List DetectedFile) (c : MergeCore),
      ∃ t, (l.foldl (stepCore env) c).warnings = c.warnings ++ t := by
  intro l
  induction l with
  | nil => intro c; exact ⟨[], by simp⟩
  | cons f rest ih =>
    intro c
    rw [List.foldl_cons]
    obtain ⟨t1, h1⟩ := stepCore_warnings_append env c f
    obtain ⟨t2, h2⟩ := ih (stepCore env c f)
    exact ⟨t1 ++ t2, by rw [h2, h1, List.append_assoc]⟩

theorem foldlCore_warnings_mono (env : Env) (l : List DetectedFile)
    (c : MergeCore) (w : String) (hw : w ∈ c.warnings) :
    w ∈ (l.foldl (stepCore env) c).warnings := by
  obtain ⟨t, ht⟩ := foldlCore_warnings_append env l c
  rw [ht]
  exact List.mem_append_left t hw

/-- An element that does not satisfy the erased predicate survives `eraseP`. -/
theorem mem_eraseP_of_not {α : Type} {p : α → Bool} :
    ∀ {l : List α} {a : α}, a ∈ l → p a = false → a ∈ l.eraseP p := by
  intro l
  induction l with
  | nil => intro a ha _; cases ha
  | cons x rest ih =>
    intro a ha hpa
    rw [List.eraseP_cons]
    cases hx : p x with
    | true =>
      simp only [hx, cond_true]
      rcases List.mem_cons.mp ha with rfl | hmem
      · rw [hpa] at hx; cases hx
      · exact hmem
    | false =>
      simp only [hx, cond_false]
      rcases List.mem_cons.mp ha with rfl | hmem
      · exact List.mem_cons_self a (List.eraseP p rest)
      · exact List.mem_cons_of_mem x (ih hmem hpa)

/-- A video-typed input file always survives into the loop file list. -/
theorem video_mem_loopFiles (files : List DetectedFile) (f : DetectedFile)
    (hf : f ∈ files) (hft : f.type = FileType.video) :
    f ∈ loopFilesOf files := by
  apply mem_eraseP_of_not hf
  rw [hft]
  rfl

/-- With a video-typed file among the inputs, the post-loop state holds a
video file. -/
theorem mergeState_videoFile_isSome (env : Env) (files : List DetectedFile)
    (f : DetectedFile) (hf : f ∈ files) (hft : f.type = FileType.video) :
    ∃ vf, (mergeState env files).core.videoFile = some vf := by
  rw [mergeState, mergeLoop_core, foldlCore_videoFile]
  have hne : (loopFilesOf files).filter (fun d => d.type == FileType.video) ≠ [] := by
    intro hnil
    have hmem : f ∈ (loopFilesOf files).filter (fun d => d.type == FileType.video) :=
      List.mem_filter.mpr
        ⟨video_mem_loopFiles files f hf hft, by rw [hft]; rfl⟩
    rw [hnil] at hmem
    cases hmem
  cases hlast : ((loopFilesOf files).filter (fun d => d.type == FileType.video)).getLast? with
  | none => exact absurd (List.getLast?_eq_none_iff.mp hlast) hne
  | some y => exact ⟨y.file, by simp [hlast]⟩

/-! ## Claim C5: failure policy of the merge -/

def envProbeFail : Env := { envOk with videoMetadata := fun _ => none }

/-- C5 counterexample: a video-typed input is present, yet the merge as a
whole fails — the video-metadata probe rejection propagates — so the
absence of a video input is not the only failing condition. -/
theorem merge_failure_policy_counterexample :
    (wVideo ∈ ([wVideo] : List DetectedFile) ∧ wVideo.type = FileType.video) ∧
    (mergeAnnotationData envProbeFail [wVideo]).1
      = Except.error "Failed to load video metadata" :=
  ⟨⟨List.mem_cons_self _ _, rfl⟩, rfl⟩

theorem mergeState_progress_len (env : Env) (files : List DetectedFile) :
    (mergeState env files).progress.length = files.length := by
  rw [mergeState, mergeLoop_progress_len]
  cases hcr : crFind files with
  | none =>
    rw [crPhase_progress_none, loopFilesOf_of_none files hcr]
    simp
  | some b =>
    rw [crPhase_progress_some]
    have := loopFilesOf_length_of_some files b hcr
    simp only [List.length_singleton]
    omega

theorem foldlCore_warning_of_mem (env : Env) (w : String) :
    ∀ (l : List DetectedFile) (c : MergeCore) (g : DetectedFile),
      g ∈ l → (∀ c', w ∈ (stepCore env c' g).warnings) →
      w ∈ (l.foldl (stepCore env) c).warnings := by
  intro l
  induction l with
  | nil => intro c g hg _; cases hg
  | cons f rest ih =>
    intro c g hg hstep
    rw [List.foldl_cons]
    rcases List.mem_cons.mp hg with rfl | hmem
    · exact foldlCore_warnings_mono env rest _ w (hstep c)
    · exact ih _ g hmem hstep

/-- C5 (amended): given at least one video-typed input, every per-file
decoder or extractor failure during the merge is converted into a warning
string naming the file and the cause and accumulates in the report, the
loop keeps processing (one progress event fires for every input file), and
the whole merge can fail only through the video-metadata probe (whose
rejection, contrary to the claim as stated, does propagate). -/
theorem merge_failure_policy (env : Env) (files : List DetectedFile)
    (v : DetectedFile) (hv : v ∈ files) (hvt : v.type = FileType.video) :
    (∀ e, (mergeAnnotationData env files).1 = Except.error e →
       e = "Failed to load video metadata") ∧
    (∀ (c : MergeCore) (f : DetectedFile) (e : String),
       (f.type = FileType.speech_recognition →
          env.parseWebVTT f.file = Except.error e →
          stepCore env c f = { c with warnings := c.warnings ++ [failMsg f e] }) ∧
       (f.type = FileType.speaker_diarization →
          env.parseRTTM f.file = Except.error e →
          stepCore env c f = { c with warnings := c.warnings ++ [failMsg f e] }) ∧
       (f.type = FileType.person_tracking → c.personTracking = [] →
          env.parseCOCOPersonData f.file = Except.error e →
          stepCore env c f = { c with warnings := c.warnings ++ [failMsg f e] }) ∧
       (f.type = FileType.face_analysis → c.faceAnalysis = [] →
          parseFaceAnalysis env f.file = Except.error e →
          stepCore env c f = { c with warnings := c.warnings ++ [failMsg f e] }) ∧
       (f.type = FileType.scene_detection → c.sceneDetection = [] →
          env.parseSceneDetection f.file = Except.error e →
          stepCore env c f = { c with warnings := c.warnings ++ [failMsg f e] })) ∧
    (∀ b e r, crFind files = some b →
       parseCompleteResults env b.file = Except.error e →
       (mergeAnnotationData env files).1 = Except.ok r →
       crFailMsg b e ∈ r.metadata.warnings) ∧
    (∀ g e r, g ∈ loopFilesOf files →
       (mergeAnnotationData env files).1 = Except.ok r →
       ((g.type = FileType.speech_recognition ∧
           env.parseWebVTT g.file = Except.error e) ∨
        (g.type = FileType.speaker_diarization ∧
           env.parseRTTM g.file = Except.error e)) →
       failMsg g e ∈ r.metadata.warnings) ∧
    (∀ g r, g ∈ loopFilesOf files →
       (mergeAnnotationData env files).1 = Except.ok r →
       g.type = FileType.unknown → unknownMsg g ∈ r.metadata.warnings) ∧
    files.length + 1 ≤ (mergeAnnotationData env files).2.length := by
  obtain ⟨vf, hvf⟩ := mergeState_videoFile_isSome env files v hv hvt
  refine ⟨?_, ?_, ?_, ?_, ?_, ?_⟩
  · intro e he
    rw [merge_fst_eq] at he
    rw [hvf] at he
    cases hm : env.videoMetadata vf with
    | none => simp [extractVideoInfo, hm] at he; exact he.symm
    | some x =>
      obtain ⟨d, w, hgt⟩ := x
      simp [extractVideoInfo, hm] at he
  · intro c f e
    refine ⟨?_, ?_, ?_, ?_, ?_⟩
    · intro hft hdec; simp [stepCore, hft, hdec]
    · intro hft hdec; simp [stepCore, hft, hdec]
    · intro hft hslot hdec; simp [stepCore, hft, hslot, hdec]
    · intro hft hslot hdec; simp [stepCore, hft, hslot, hdec]
    · intro hft hslot hdec; simp [stepCore, hft, hslot, hdec]
  · intro b e r hb he hr
    obtain ⟨-, -, hw, -⟩ := merge_ok_shape env files r hr
    rw [hw, mergeState, mergeLoop_core]
    apply foldlCore_warnings_mono
    rw [hb]
    simp [crPhase, he]
  · rintro g e r hg hr (⟨hgt, hdec⟩ | ⟨hgt, hdec⟩)
    · obtain ⟨-, -, hw, -⟩ := merge_ok_shape env files r hr
      rw [hw, mergeState, mergeLoop_core]
      exact foldlCore_warning_of_mem env _ _ _ g hg
        (fun c' => by simp [stepCore, hgt, hdec])
    · obtain ⟨-, -, hw, -⟩ := merge_ok_shape env files r hr
      rw [hw, mergeState, mergeLoop_core]
      exact foldlCore_warning_of_mem env _ _ _ g hg
        (fun c' => by simp [stepCore, hgt, hdec])
  · intro g r hg hr hgt
    obtain ⟨-, -, hw, -⟩ := merge_ok_shape env files r hr
    rw [hw, mergeState, mergeLoop_core]
    exact foldlCore_warning_of_mem env _ _ _ g hg
      (fun c' => by simp [stepCore, hgt])
  · rw [merge_snd_eq]
    rw [hvf]
    cases he : extractVideoInfo env vf with
    | error e =>
      simp only [he, List.length_append, List.length_singleton,
        mergeState_progress_len]
      omega
    | ok vi =>
      simp only [he, List.length_append, List.length_singleton,
        mergeState_progress_len]
      omega

/-- Witness for the amended C5 at a concrete input with a video file. -/
theorem merge_failure_policy_witness :
    ([wVideo, wSpeech] : List DetectedFile).length + 1
      ≤ (mergeAnnotationData envOk [wVideo, wSpeech]).2.length :=
  (merge_failure_policy envOk [wVideo, wSpeech] wVideo
    (List.mem_cons_self _ _) rfl).2.2.2.2.2

/-! ## Claim C2: complete-results precedence over a separate person file -/

theorem parseFaceAnalysis_congr (env env' : Env) (hA : env'.parseJson = env.parseJson)
    (file : DFile) : parseFaceAnalysis env' file = parseFaceAnalysis env file := by
  rw [parseFaceAnalysis, parseFaceAnalysis, hA]

theorem parseCompleteResults_congr (env env' : Env)
    (hA : env'.parseJson = env.parseJson) (file : DFile) :
    parseCompleteResults env' file = parseCompleteResults env file := by
  rw [parseCompleteResults, parseCompleteResults, hA]

theorem crPhase_congr (env env' : Env) (hA : env'.parseJson = env.parseJson)
    (n : Nat) (x : Option DetectedFile) : crPhase env' n x = crPhase env n x := by
  cases x with
  | none => rfl
  | some b => rw [crPhase, crPhase, parseCompleteResults_congr env env' hA]

/-- A step on a state whose person slot is filled never consults the person
decoder: any two environments agreeing elsewhere step identically. -/
theorem stepCore_agree (env env' : Env)
    (hA1 : env'.parseJson = env.parseJson)
    (hA2 : env'.parseWebVTT = env.parseWebVTT)
    (hA3 : env'.parseRTTM = env.parseRTTM)
    (hA4 : env'.parseSceneDetection = env.parseSceneDetection)
    (c : MergeCore) (f : DetectedFile) (hc : c.personTracking ≠ []) :
    stepCore env' c f = stepCore env c f := by
  cases hft : f.type <;> simp [stepCore, hft]
  case person_tracking =>
    have : c.personTracking.isEmpty = false := by
      simpa [List.isEmpty_iff] using hc
    simp [this]
  case face_analysis =>
    rw [parseFaceAnalysis_congr env env' hA1]
  case speech_recognition => rw [hA2]
  case speaker_diarization => rw [hA3]
  case scene_detection => rw [hA4]

theorem stepCore_person_const (env : Env) (c : MergeCore) (f : DetectedFile)
    (hc : c.personTracking ≠ []) :
    (stepCore env c f).personTracking = c.personTracking := by
  cases hft : f.type <;> simp [stepCore, hft]
  case person_tracking =>
    have : c.personTracking.isEmpty = false := by
      simpa [List.isEmpty_iff] using hc
    simp [this]
  case face_analysis =>
    cases hpe : c.faceAnalysis.isEmpty <;> simp [hpe]
    cases hdec : parseFaceAnalysis env f.file <;> simp [hdec]
  case speech_recognition =>
    cases hdec : env.parseWebVTT f.file <;> simp [hdec]
  case speaker_diarization =>
    cases hdec : env.parseRTTM f.file <;> simp [hdec]
  case scene_detection =>
    cases hpe : c.sceneDetection.isEmpty <;> simp [hpe]
    cases hdec : env.parseSceneDetection f.file <;> simp [hdec]

theorem foldlCore_person_const (env : Env) :
    ∀ (l : List DetectedFile) (c : MergeCore), c.personTracking ≠ [] →
      (l.foldl (stepCore env) c).personTracking = c.personTracking := by
  intro l
  induction l with
  | nil => intro c _; rfl
  | cons f rest ih =>
    intro c hc
    rw [List.foldl_cons]
    rw [ih _ (by rw [stepCore_person_const env c f hc]; exact hc)]
    exact stepCore_person_const env c f hc

theorem mergeLoop_agree (env env' : Env)
    (hA1 : env'.parseJson = env.parseJson)
    (hA2 : env'.parseWebVTT = env.parseWebVTT)
    (hA3 : env'.parseRTTM = env.parseRTTM)
    (hA4 : env'.parseSceneDetection = env.parseSceneDetection)
    (n : Nat) :
    ∀ (l : List DetectedFile) (st : MergeSt), st.core.personTracking ≠ [] →
      mergeLoop env' n st l = mergeLoop env n st l := by
  intro l
  induction l with
  | nil => intro st _; rfl
  | cons f rest ih =>
    intro st hc
    rw [mergeLoop, mergeLoop]
    have hstep : stepFile env' n st f = stepFile env n st f := by
      rw [stepFile, stepFile, stepCore_agree env env' hA1 hA2 hA3 hA4 st.core f hc]
    rw [hstep]
    apply ih
    show (stepCore env st.core f).personTracking ≠ []
    rw [stepCore_person_const env st.core f hc]
    exact hc

/-- A loop over a state with a filled person slot ignores the person-typed
files entirely (at the accumulator level). -/
theorem foldlCore_drop_person (env : Env) :
    ∀ (l : List DetectedFile) (c : MergeCore), c.personTracking ≠ [] →
      l.foldl (stepCore env) c
        = (l.filter (fun f => !(f.type == FileType.person_tracking))).foldl
            (stepCore env) c := by
  intro l
  induction l with
  | nil => intro c _; rfl
  | cons f rest ih =>
    intro c hc
    rw [List.foldl_cons, List.filter_cons]
    by_cases hft : f.type = FileType.person_tracking
    · have hcond : (!(f.type == FileType.person_tracking)) = false := by simp [hft]
      rw [hcond]
      simp only [Bool.false_eq_true, if_false]
      have hid : stepCore env c f = c := by
        have hpe : c.personTracking.isEmpty = false := by
          simpa [List.isEmpty_iff] using hc
        simp [stepCore, hft, hpe]
      rw [hid]
      exact ih c hc
    · have hcond : (!(f.type == FileType.person_tracking)) = true := by simp [hft]
      rw [hcond]
      simp only [if_true]
      rw [List.foldl_cons]
      apply ih
      rw [stepCore_person_const env c f hc]
      exact hc

theorem find?_filter_of_imp {α : Type} (p q : α → Bool)
    (hpq : ∀ x, p x = true → q x = true) :
    ∀ l : List α, List.find? p (l.filter q) = List.find? p l := by
  intro l
  induction l with
  | nil => rfl
  | cons x rest ih =>
    rw [List.filter_cons]
    cases hq : q x with
    | true =>
      simp only [if_true]
      rw [List.find?_cons, List.find?_cons]
      cases hp : p x with
      | true => rfl
      | false => exact ih
    | false =>
      simp only [Bool.false_eq_true, if_false]
      rw [ih, List.find?_cons]
      cases hp : p x with
      | true => rw [hpq x hp] at hq; cases hq
      | false => rfl

theorem eraseP_filter_comm {α : Type} (p q : α → Bool)
    (hpq : ∀ x, p x = true → q x = true) :
    ∀ l : List α, (l.filter q).eraseP p = (l.eraseP p).filter q := by
  intro l
  induction l with
  | nil => rfl
  | cons x rest ih =>
    rw [List.filter_cons, List.eraseP_cons]
    cases hq : q x with
    | true =>
      simp only [if_true]
      rw [List.eraseP_cons]
      cases hp : p x with
      | true => simp only [cond_true]
      | false =>
        simp only [cond_false]
        rw [ih, List.filter_cons]
        simp [hq]
    | false =>
      have hp : p x = false := by
        cases hpx : p x
        · rfl
        · rw [hpq x hpx] at hq; cases hq
      simp only [Bool.false_eq_true, if_false, hp, cond_false]
      rw [ih, List.filter_cons]
      simp [hq]

theorem crPhase_core_n (env : Env) (n m : Nat) (x : Option DetectedFile) :
    (crPhase env n x).core = (crPhase env m x).core := by
  cases x with
  | none => rfl
  | some b => cases hm : parseCompleteResults env b.file <;> simp [crPhase, hm]

/-- Any successful merge result, fully determined by the post-loop state. -/
theorem merge_ok_shape2 (env : Env) (files : List DetectedFile) (r : ParseResult)
    (h : (mergeAnnotationData env files).1 = Except.ok r) :
    ∃ vf vi, (mergeState env files).core.videoFile = some vf ∧
      extractVideoInfo env vf = Except.ok vi ∧
      r = { data := buildData vi (mergeState env files).core,
            metadata :=
              { filesProcessed := (mergeState env files).processedFiles,
                pipelinesFound := (mergeState env files).core.pipelinesFound,
                warnings := (mergeState env files).core.warnings } } := by
  cases hvf : (mergeState env files).core.videoFile with
  | none =>
    rw [merge_fst_eq, hvf] at h
    simp at h
  | some vf =>
    rw [merge_fst_eq, hvf] at h
    have h' : (match extractVideoInfo env vf with
        | .error e => Except.error e
        | .ok vi =>
          Except.ok
            { data := buildData vi (mergeState env files).core,
              metadata :=
                { filesProcessed := (mergeState env files).processedFiles,
                  pipelinesFound := (mergeState env files).core.pipelinesFound,
                  warnings := (mergeState env files).core.warnings } }) = Except.ok r := h
    cases hvi : extractVideoInfo env vf with
    | error e => rw [hvi] at h'; simp at h'
    | ok vi =>
      rw [hvi] at h'
      simp only [Except.ok.injEq] at h'
      exact ⟨vf, vi, rfl, hvi, h'.symm⟩

/-- C2 (amended): when the input list contains a complete-results bundle
whose extraction succeeds with a non-empty person-tracking sequence (and a
separate person-tracking file), the merge uses the bundle's person-tracking
data, the separate file's decoder is never invoked (the whole merge output
is independent of the person-tracking decoder), and no warning arises from
the skip (report warnings, found pipelines and record data are exactly
those obtained with every person-tracking file removed from the input). -/
theorem merge_bundle_person_precedence (env env' : Env)
    (files : List DetectedFile) (b : DetectedFile) (cr : CRParsed)
    (_hpfile : ∃ f ∈ files, f.type = FileType.person_tracking)
    (hb : crFind files = some b)
    (hcr : parseCompleteResults env b.file = Except.ok cr)
    (hne : cr.personTracking ≠ [])
    (hA1 : env'.parseJson = env.parseJson)
    (hA2 : env'.parseWebVTT = env.parseWebVTT)
    (hA3 : env'.parseRTTM = env.parseRTTM)
    (hA4 : env'.parseSceneDetection = env.parseSceneDetection)
    (hA5 : env'.videoMetadata = env.videoMetadata) :
    mergeAnnotationData env' files = mergeAnnotationData env files ∧
    (∀ r, (mergeAnnotationData env files).1 = Except.ok r →
       r.data.person_tracking = some cr.personTracking) ∧
    (∀ r r', (mergeAnnotationData env files).1 = Except.ok r →
       (mergeAnnotationData env
          (files.filter (fun f => !(f.type == FileType.person_tracking)))).1
            = Except.ok r' →
       r.metadata.warnings = r'.metadata.warnings ∧
       r.metadata.pipelinesFound = r'.metadata.pipelinesFound ∧
       r.data = r'.data) := by
  have hslot0 : (crPhase env files.length (crFind files)).core.personTracking
      = cr.personTracking := by
    rw [hb]
    simp [crPhase, hcr]
  have hslotne : (crPhase env files.length (crFind files)).core.personTracking ≠ [] := by
    rw [hslot0]; exact hne
  have hext : ∀ vf, extractVideoInfo env' vf = extractVideoInfo env vf := by
    intro vf
    rw [extractVideoInfo, extractVideoInfo, hA5]
  have hms : mergeState env' files = mergeState env files := by
    rw [mergeState, mergeState, crPhase_congr env env' hA1]
    exact mergeLoop_agree env env' hA1 hA2 hA3 hA4 files.length
      (loopFilesOf files) _ hslotne
  have hslotfinal : (mergeState env files).core.personTracking = cr.personTracking := by
    rw [mergeState, mergeLoop_core, foldlCore_person_const env _ _ hslotne, hslot0]
  refine ⟨?_, ?_, ?_⟩
  · rw [mergeAnnotationData_eq env' files, mergeAnnotationData_eq env files, hms]
    cases hv : (mergeState env files).core.videoFile with
    | none => simp [hv]
    | some vf =>
      cases he : extractVideoInfo env vf with
      | error e => simp [hv, hext, he]
      | ok vi => simp [hv, hext, he]
  · intro r hr
    obtain ⟨vf, vi, hvf, hvi, hre⟩ := merge_ok_shape2 env files r hr
    rw [hre]
    show (buildData vi (mergeState env files).core).person_tracking
        = some cr.personTracking
    rw [buildData]
    simp only [hslotfinal]
    have : cr.personTracking.isEmpty = false := by
      simpa [List.isEmpty_iff] using hne
    simp [this]
  · intro r r' hr hr'
    have hfind' : crFind (files.filter (fun f => !(f.type == FileType.person_tracking)))
        = crFind files := by
      rw [crFind, crFind]
      apply find?_filter_of_imp
      intro x hx
      have : x.type = FileType.complete_results := by simpa using hx
      simp [this]
    have hloop' : loopFilesOf (files.filter (fun f => !(f.type == FileType.person_tracking)))
        = (loopFilesOf files).filter (fun f => !(f.type == FileType.person_tracking)) := by
      rw [loopFilesOf, loopFilesOf]
      apply eraseP_filter_comm
      intro x hx
      have : x.type = FileType.complete_results := by simpa using hx
      simp [this]
    have hcore' : (mergeState env
        (files.filter (fun f => !(f.type == FileType.person_tracking)))).core
        = (mergeState env files).core := by
      rw [mergeState, mergeState, mergeLoop_core, mergeLoop_core, hloop', hfind',
        crPhase_core_n env (files.filter (fun f => !(f.type == FileType.person_tracking))).length
          files.length (crFind files)]
      exact (foldlCore_drop_person env (loopFilesOf files) _ hslotne).symm
    obtain ⟨vf, vi, hvf, hvi, hre⟩ := merge_ok_shape2 env files r hr
    obtain ⟨vf', vi', hvf', hvi', hre'⟩ := merge_ok_shape2 env _ r' hr'
    rw [hcore'] at hvf'
    rw [hvf] at hvf'
    obtain rfl : vf = vf' := Option.some.inj hvf'
    rw [hvi] at hvi'
    obtain rfl : vi = vi' := Except.ok.inj hvi'
    rw [hre, hre']
    refine ⟨?_, ?_, ?_⟩
    · show (mergeState env files).core.warnings = _
      rw [hcore']
    · show (mergeState env files).core.pipelinesFound = _
      rw [hcore']
    · show buildData vi (mergeState env files).core = _
      rw [hcore']

/-- A parsed complete-results bundle with all sections empty. -/
def crEmptyJson : Json :=
  .obj [("video_path", .str "v.mp4"), ("pipeline_results", .obj []),
        ("config", .obj []), ("start_time", .str "t0"),
        ("total_duration", .num 10)]

def envC2a : Env :=
  { envOk with
    parseJson := fun s => if s = "CRE" then .ok crEmptyJson else .error "bad",
    parseCOCOPersonData := fun _ => .ok [.str "A"] }

def envC2b : Env :=
  { envC2a with parseCOCOPersonData := fun _ => .ok [.str "A", .str "B"] }

def wCRE : DetectedFile :=
  ⟨⟨"complete_results.json", "application/json", "CRE"⟩, .complete_results,
    some "complete_results", 0.95⟩

def wPerson : DetectedFile :=
  ⟨⟨"person.json", "application/json", "PJ"⟩, .person_tracking,
    some "person_tracking", 0.8⟩

/-- C2 counterexample: with a successfully extracted bundle whose person
section is empty and a separate person-tracking file, the merge output does
depend on the person decoder (it is invoked), and the record carries the
decoder's data rather than the bundle's. -/
theorem bundle_person_precedence_counterexample :
    (Option.map (fun r => Option.map List.length r.data.person_tracking)
        (mergeAnnotationData envC2a [wCRE, wPerson, wVideo]).1.toOption)
      = some (some 1) ∧
    (Option.map (fun r => Option.map List.length r.data.person_tracking)
        (mergeAnnotationData envC2b [wCRE, wPerson, wVideo]).1.toOption)
      = some (some 2) := ⟨rfl, rfl⟩

/-- A parsed complete-results bundle with one person-tracking record. -/
def crPersonJson : Json :=
  .obj [("video_path", .str "v.mp4"),
        ("pipeline_results",
          .obj [("person", .obj [("results", .arr [.str "bundleP"]),
                                 ("processing_time", .num 3)])]),
        ("config", .obj []), ("start_time", .str "t0"),
        ("total_duration", .num 10)]

def envC2w : Env :=
  { envOk with
    parseJson := fun s => if s = "CRP" then .ok crPersonJson else .error "bad",
    parseCOCOPersonData := fun _ => .ok [.str "sepP"] }

def envC2w' : Env := { envC2w with parseCOCOPersonData := fun _ => .ok [] }

def wCRP : DetectedFile :=
  ⟨⟨"complete_results.json", "application/json", "CRP"⟩, .complete_results,
    some "complete_results", 0.95⟩

/-- Witness for the amended C2: at a concrete input with a person-bearing
bundle, changing the person decoder does not change the merge output. -/
theorem merge_bundle_person_precedence_witness :
    mergeAnnotationData envC2w' [wCRP, wPerson, wVideo]
      = mergeAnnotationData envC2w [wCRP, wPerson, wVideo] :=
  (merge_bundle_person_precedence envC2w envC2w' [wCRP, wPerson, wVideo] wCRP
    { personTracking := [.str "bundleP"], faceAnalysis := [],
      sceneDetection := [], config := some (.obj []), processingTime := 3,
      totalDuration := some (.num 10) }
    ⟨wPerson, List.mem_cons_of_mem _ (List.mem_cons_self _ _), rfl⟩
    (by rfl) (by rfl) (by simp) rfl rfl rfl rfl rfl).1

/-! ## Claim C6: the complete-results sniffer -/

/-- Stated from the claim's words: the parsed value has all of
`video_path`, `pipeline_results`, `config`, `start_time` present and
`total_duration` not undefined (a parse failure is no match). -/
def completeResultsMatchClaim : Option Json → Bool
  | some (.obj kvs) =>
    (kvs.any (fun kv => kv.1 == "video_path")) &&
    (kvs.any (fun kv => kv.1 == "pipeline_results")) &&
    (kvs.any (fun kv => kv.1 == "config")) &&
    (kvs.any (fun kv => kv.1 == "start_time")) &&
    (kvs.any (fun kv => kv.1 == "total_duration"))
  | _ => false

/-- Stated from the amended claim: the parsed value is an object whose
`video_path`, `pipeline_results`, `config` and `start_time` fields are
present **and truthy**, with `total_duration` present. -/
def completeResultsMatchAmended : Option Json → Bool
  | some (.obj kvs) =>
    jtruthy (kvs.lookup "video_path") && jtruthy (kvs.lookup "pipeline_results") &&
    jtruthy (kvs.lookup "config") && jtruthy (kvs.lookup "start_time") &&
    (kvs.lookup "total_duration").isSome
  | _ => false

/-- A bundle object whose fields are all present but whose `video_path` is
the (falsy) empty string. -/
def cr6Json : Json :=
  .obj [("video_path", .str ""), ("pipeline_results", .obj []),
        ("config", .obj []), ("start_time", .num 1),
        ("total_duration", .num 10)]

def envC6 : Env :=
  { envOk with parseJson := fun s => if s = "C6" then .ok cr6Json else .error "bad" }

def wC6 : DFile := ⟨"results.json", "application/json", "C6"⟩

/-- C6 counterexample: a parsed file with all five fields present (so the
claim's condition holds) on which the sniffer does not match, because
`video_path` is present but falsy. -/
theorem complete_results_sniffer_counterexample :
    completeResultsMatchClaim ((envC6.parseJson wC6.text).toOption) = true ∧
    isValidCompleteResults envC6 wC6 = false := ⟨rfl, rfl⟩

theorem crCheck_spec (data : Json) :
    (match crCheck data with
     | .ok b => b
     | .error _ => false) = completeResultsMatchAmended (some data) := by
  cases data with
  | null => rfl
  | bool b => rfl
  | num n => rfl
  | str s => rfl
  | arr l => rfl
  | obj kvs =>
    simp only [crCheck, getField]
    by_cases h1 : jtruthy (kvs.lookup "video_path") <;>
      by_cases h2 : jtruthy (kvs.lookup "pipeline_results") <;>
      by_cases h3 : jtruthy (kvs.lookup "config") <;>
      by_cases h4 : jtruthy (kvs.lookup "start_time") <;>
      simp [completeResultsMatchAmended, h1, h2, h3, h4]

/-- C6 (amended): the complete-results sniffer parses the entire file
content and matches exactly when the result is an object whose
`video_path`, `pipeline_results`, `config` and `start_time` are present and
truthy with `total_duration` present (parse failures match nothing); it
runs before any prefix-based check, and on a match classification returns
`complete_results` at confidence 0.95 at once, consulting nothing but the
whole-file parse. -/
theorem complete_results_sniffer_spec (env : Env) (file : DFile) :
    isValidCompleteResults env file
      = completeResultsMatchAmended ((env.parseJson file.text).toOption) ∧
    (isValidCompleteResults env file = true →
       detectJSONType env file
         = ⟨file, .complete_results, some "complete_results", 0.95⟩ ∧
       ∀ env2 : Env, env2.parseJson file.text = env.parseJson file.text →
         detectJSONType env2 file = detectJSONType env file) := by
  constructor
  · rw [isValidCompleteResults]
    cases hp : env.parseJson file.text with
    | error e => rfl
    | ok data => exact crCheck_spec data
  · intro hval
    have hd : detectJSONType env file
        = ⟨file, .complete_results, some "complete_results", 0.95⟩ := by
      rw [detectJSONType, if_pos hval]
    refine ⟨hd, ?_⟩
    intro env2 heq
    have hval2 : isValidCompleteResults env2 file = true := by
      rw [isValidCompleteResults, heq]
      rw [isValidCompleteResults] at hval
      exact hval
    rw [detectJSONType, if_pos hval2, hd]

/-- Witness for the amended C6: a concrete valid bundle is classified
`complete_results` at confidence 0.95. -/
theorem complete_results_sniffer_spec_witness :
    detectJSONType envC2w ⟨"complete_results.json", "application/json", "CRP"⟩
      = ⟨⟨"complete_results.json", "application/json", "CRP"⟩,
          .complete_results, some "complete_results", 0.95⟩ :=
  ((complete_results_sniffer_spec envC2w
      ⟨"complete_results.json", "application/json", "CRP"⟩).2 (by rfl)).1

/-! ## Claim C7: the face-analysis sniffer -/

/-- A value has a named field (claim-side reading of "has a `k` field"). -/
def hasFieldB (v : Json) (k : String) : Bool :=
  match v with
  | .obj kvs => kvs.any (fun kv => kv.1 == k)
  | _ => false

/-- Stated from the claim's words: the parsed prefix is (a) a sequence
whose first element has both `face_id` and `attributes`, or (b) an object
whose `annotations[0]` or `results[0]` has `face_id`. -/
def faceAnalysisMatchClaim : Option Json → Bool
  | some (.arr (x :: _)) => hasFieldB x "face_id" && hasFieldB x "attributes"
  | some (.obj kvs) =>
    (match kvs.lookup "annotations" with
     | some (.arr (a0 :: _)) => hasFieldB a0 "face_id"
     | _ => false) ||
    (match kvs.lookup "results" with
     | some (.arr (r0 :: _)) => hasFieldB r0 "face_id"
     | _ => false)
  | _ => false

/-- Evaluation of `v && v[0] && 'face_id' in v[0]` on a field value; `none`
models the `TypeError` thrown when `v[0]` is a truthy primitive, which
aborts the whole sniffer. -/
def faceFirstProbe : Option Json → Option Bool
  | none => some false
  | some a =>
    if truthy a then
      match index0 a with
      | none => some false
      | some a0 =>
        if truthy a0 then
          match a0 with
          | .obj kvs => some (kvs.any (fun kv => kv.1 == "face_id"))
          | .arr _ => some false
          | _ => none
        else some false
    else some false

/-- Stated from the amended claim: the parse succeeds and yields (a) an
empty sequence, or a sequence whose first element is an object carrying
both `face_id` and `attributes`, or (b) a non-sequence object whose truthy
`annotations` field has a truthy first element carrying `face_id`, or —
when that probe neither matched nor threw — whose truthy `results` field
likewise carries `face_id`; a thrown check makes the sniffer false. -/
def faceAnalysisMatchAmended : Option Json → Bool
  | some (.arr []) => true
  | some (.arr (x :: _)) =>
    match x with
    | .obj kvs =>
      (kvs.any (fun kv => kv.1 == "face_id")) &&
      (kvs.any (fun kv => kv.1 == "attributes"))
    | _ => false
  | some (.obj kvs) =>
    (match faceFirstProbe (kvs.lookup "annotations") with
     | none => false
     | some true => true
     | some false => (faceFirstProbe (kvs.lookup "results")).getD false)
  | _ => false

def envC7 : Env :=
  { envOk with parseJson := fun s => if s = "C7" then .ok (.arr []) else .error "bad" }

def wC7 : DFile := ⟨"faces.json", "application/json", "C7"⟩

/-- C7 counterexample: a file whose prefix parses to the empty sequence is
matched by the sniffer, although the claim's condition (a first element
with `face_id` and `attributes`) does not hold. -/
theorem face_analysis_sniffer_counterexample :
    isValidFaceAnalysis envC7 wC7 = true ∧
    faceAnalysisMatchClaim ((envC7.parseJson (strTake wC7.text 2000)).toOption)
      = false := ⟨rfl, rfl⟩

theorem probeFirstElemKey_toOption (v : Option Json) :
    (probeFirstElemKey v "face_id").toOption = faceFirstProbe v := by
  cases v with
  | none => rfl
  | some a =>
    rw [probeFirstElemKey, faceFirstProbe]
    by_cases ht : truthy a = true
    · simp only [ht, if_true]
      cases h0 : index0 a with
      | none => rfl
      | some a0 =>
        by_cases ht0 : truthy a0 = true
        · simp only [ht0, if_true]
          cases a0 <;> rfl
        · simp only [ht0, if_false]
          rfl
    · simp only [ht, if_false]
      rfl

theorem faceCheck_spec (data : Json) :
    (match faceCheck data with
     | .ok b => b
     | .error _ => false) = faceAnalysisMatchAmended (some data) := by
  cases data with
  | null => rfl
  | bool b => cases b <;> rfl
  | num n =>
    simp only [faceCheck, getField]
    rfl
  | str s =>
    simp only [faceCheck, getField]
    rfl
  | arr l =>
    cases l with
    | nil => rfl
    | cons x t =>
      cases x with
      | null => rfl
      | bool b => cases b <;> rfl
      | num n =>
        simp only [faceCheck]
        by_cases hn : truthy (Json.num n) = true <;>
          simp [hn, hasKey, faceAnalysisMatchAmended]
      | str s =>
        simp only [faceCheck]
        by_cases hn : truthy (Json.str s) = true <;>
          simp [hn, hasKey, faceAnalysisMatchAmended]
      | arr l2 => rfl
      | obj kvs =>
        simp only [faceCheck, hasKey, faceAnalysisMatchAmended]
        by_cases hface : (kvs.any (fun kv => kv.1 == "face_id")) = true <;>
          simp [hface, truthy]
  | obj kvs =>
    have hAnn := probeFirstElemKey_toOption (kvs.lookup "annotations")
    have hRs := probeFirstElemKey_toOption (kvs.lookup "results")
    simp only [faceCheck, getField]
    cases hpa : probeFirstElemKey (kvs.lookup "annotations") "face_id" with
    | error e =>
      have hA : faceFirstProbe (kvs.lookup "annotations") = none := by
        rw [← hAnn, hpa]; rfl
      simp [faceAnalysisMatchAmended, hA]
    | ok b =>
      cases b with
      | true =>
        have hA : faceFirstProbe (kvs.lookup "annotations") = some true := by
          rw [← hAnn, hpa]; rfl
        simp [faceAnalysisMatchAmended, hA]
      | false =>
        have hA : faceFirstProbe (kvs.lookup "annotations") = some false := by
          rw [← hAnn, hpa]; rfl
        cases hpr : probeFirstElemKey (kvs.lookup "results") "face_id" with
        | error e =>
          have hR : faceFirstProbe (kvs.lookup "results") = none := by
            rw [← hRs, hpr]; rfl
          simp [faceAnalysisMatchAmended, hA, hR]
        | ok b' =>
          have hR : faceFirstProbe (kvs.lookup "results") = some b' := by
            rw [← hRs, hpr]; rfl
          simp [faceAnalysisMatchAmended, hA, hR]

/-- C7 (amended): the face-analysis sniffer matches exactly when the
bounded prefix parses and yields an **empty sequence**, a sequence whose
first element is an object with both `face_id` and `attributes`, or a
non-sequence object whose `annotations`/`results` probe (evaluated with
JavaScript truthiness, and aborted wholesale by a thrown property check)
finds `face_id`; whenever the sniffer matches during JSON
sub-classification — the complete-results check failed and the 5000-char
prefix parses — the file is classified `face_analysis` at confidence 0.8. -/
theorem face_analysis_sniffer_spec (env : Env) (file : DFile) :
    isValidFaceAnalysis env file
      = faceAnalysisMatchAmended ((env.parseJson (strTake file.text 2000)).toOption) ∧
    (isValidCompleteResults env file = false →
     ∀ j5, env.parseJson (strTake file.text 5000) = Except.ok j5 →
     isValidFaceAnalysis env file = true →
     detectJSONType env file = ⟨file, .face_analysis, some "face_analysis", 0.8⟩) := by
  constructor
  · rw [isValidFaceAnalysis]
    cases hp : env.parseJson (strTake file.text 2000) with
    | error e => rfl
    | ok data => exact faceCheck_spec data
  · intro hcr j5 h5 hface
    rw [detectJSONType]
    simp [hcr, h5, hface]

def envC7w : Env :=
  { envOk with
    parseJson := fun s =>
      if s = "FJ" then .ok (.arr [.obj [("face_id", .num 1), ("attributes", .obj [])]])
      else .error "bad" }

def wC7w : DFile := ⟨"faces.json", "application/json", "FJ"⟩

/-- Witness for the amended C7: a concrete face-annotation array is
classified `face_analysis` at confidence 0.8. -/
theorem face_analysis_sniffer_spec_witness :
    detectJSONType envC7w wC7w
      = ⟨wC7w, .face_analysis, some "face_analysis", 0.8⟩ :=
  (face_analysis_sniffer_spec envC7w wC7w).2 (by rfl) _ (by rfl) (by rfl)
